import Mathlib

/-!
Verification development for the preference-weighted multi-criteria ranking
and combination optimizer of the travel-planning backend.

The embedding models the Python sources:
  * `backend/services/scoring.py` (weight normalization, clamped totals),
  * `backend/main.py` (`generateOptimalItinerary`,
    `apply_preference_weights_to_hotels`,
    `apply_preference_filters_to_activities`).

Python floats are idealized as rationals `ℚ`; fallible Python code
(`float(...)` conversions, string arithmetic) is modelled in the
`Except Unit` monad, `Except.error ()` standing for a raised exception.
Mutation of caller-owned dicts and lists is modelled by explicit state:
functions return the post-call contents of the records they annotate.
-/

namespace TravelOptimizer

deriving instance DecidableEq for Except

/-- A Python scalar value as it can appear in a candidate or preference
field: `pnone` is Python `None`; `num q` an int or float of value `q`;
`strNum q` a non-empty string (such as a numeric literal) that `float()`
parses to `q`; `strBad` a non-empty string that `float()` rejects;
`strEmpty` the empty string. -/
inductive PyVal where
  | pnone
  | num (q : ℚ)
  | strNum (q : ℚ)
  | strBad
  | strEmpty
deriving Repr, DecidableEq

/-- Python truthiness of a scalar (`if value:`): `None`, `0` and the empty
string are falsy, non-empty strings and non-zero numbers are truthy. -/
def truthy : PyVal → Bool
  | .pnone => false
  | .num q => decide (q ≠ 0)
  | .strNum _ => true
  | .strBad => true
  | .strEmpty => false

/-- Python `float(value)`: raises (`.error`) on `None` and on strings that
do not parse as a number; parses numeric strings. -/
def pyFloat : PyVal → Except Unit ℚ
  | .pnone => .error ()
  | .num q => .ok q
  | .strNum q => .ok q
  | .strBad => .error ()
  | .strEmpty => .error ()

/-- Using a raw value directly in float arithmetic without a `float()`
conversion (as `generateOptimalItinerary` does with the preference values):
any string or `None` raises a `TypeError` when added to or compared with a
float, so only actual numbers survive. -/
def asArith : PyVal → Except Unit ℚ
  | .num q => .ok q
  | _ => .error ()

/-- The `_safe_float` helpers of the ranking paths applied to a scalar:
`float()` failures are caught and turned into `none` instead of raising. -/
def safeFloatV : PyVal → Option ℚ
  | .pnone => none
  | .num q => some q
  | .strNum q => some q
  | .strBad => none
  | .strEmpty => none

/-- Python `round(x, n)` idealized over `ℚ`: round to `n` decimal places.
Mathlib `round` rounds half away from zero upward; CPython rounds
half-to-even on the underlying binary floats.  The two agree except at
exact decimal midpoints, which none of the verified properties depend on. -/
def pyRound (n : ℕ) (x : ℚ) : ℚ := ((round (x * 10 ^ n) : ℤ) : ℚ) / 10 ^ n

/-- A three-key Python dict (`budget` / `quality` / `convenience`): each key
is either absent (`none`) or bound to a scalar value.  Used both for the
preference-weight dicts and for the scores dict of `calculate_total_score`. -/
structure PyMap3 where
  budget : Option PyVal
  quality : Option PyVal
  convenience : Option PyVal
deriving Repr, DecidableEq

/-! ## `backend/services/scoring.py` -/

/-- `DEFAULT_WEIGHTS` of `services/scoring.py`. -/
def DEFAULT_WEIGHTS : ℚ × ℚ × ℚ := (0.33, 0.33, 0.34)

/-- `normalize_weights` of `services/scoring.py`.  The `none` input stands
for Python `None` or an empty (falsy) dict.  Each entry is read with
default `0.0`, converted by `float()` (which may raise), clamped at `0`;
if the clamped sum is `≤ 0` the default distribution is returned, else the
entries are divided by the sum. -/
def normalize_weights : Option PyMap3 → Except Unit (ℚ × ℚ × ℚ)
  | none => .ok DEFAULT_WEIGHTS
  | some w => do
    let b0 ← pyFloat (w.budget.getD (.num 0))
    let q0 ← pyFloat (w.quality.getD (.num 0))
    let c0 ← pyFloat (w.convenience.getD (.num 0))
    let b := max b0 0
    let q := max q0 0
    let c := max c0 0
    let total := b + q + c
    if total ≤ 0 then pure DEFAULT_WEIGHTS
    else pure (b / total, q / total, c / total)

/-- `clamp_score` of `services/scoring.py`: `max(0.0, min(float(value), 100.0))`. -/
def clamp_score (v : PyVal) : Except Unit ℚ := do
  let x ← pyFloat v
  pure (max 0 (min x 100))

/-- `calculate_total_score` of `services/scoring.py`: normalize the weights,
clamp each axis score (missing axes default to `0.0`), form the weighted
sum and round it to two decimal places. -/
def calculate_total_score (scores : PyMap3) (weights : Option PyMap3) :
    Except Unit ℚ := do
  let w ← normalize_weights weights
  let bs ← clamp_score (scores.budget.getD (.num 0))
  let qs ← clamp_score (scores.quality.getD (.num 0))
  let cs ← clamp_score (scores.convenience.getD (.num 0))
  pure (pyRound 2 (bs * w.1 + qs * w.2.1 + cs * w.2.2))

/-! ## Candidate field shapes -/

/-- A price-typed field value: either a scalar, or a dict carrying optional
`total` and `amount` entries (`none` components mean the key is absent).
Price dicts are modelled as truthy, i.e. non-empty. -/
inductive PricePy where
  | scal (v : PyVal)
  | pdict (total amount : Option PyVal)
deriving Repr, DecidableEq

/-- A duration-typed field value.  `dnone` is Python `None`; `iso h m` a
well-formed `PT#H#M` string with each component present or absent;
`isoDays d` a `P#D` string; `numv q` an int or float; `strOther` any
string not starting with `P`. -/
inductive DurVal where
  | dnone
  | iso (h m : Option ℕ)
  | isoDays (d : ℕ)
  | numv (q : ℚ)
  | strOther
deriving Repr, DecidableEq

/-- Python truthiness of a duration field value (the represented strings
are all non-empty, hence truthy). -/
def durTruthy : DurVal → Bool
  | .dnone => false
  | .numv q => decide (q ≠ 0)
  | _ => true

/-- Hours encoded by a `PT#H#M` string: absent components count as zero. -/
def isoHours (h m : Option ℕ) : ℚ := (h.getD 0 : ℚ) + (m.getD 0 : ℚ) / 60

/-- Truthiness of a price-typed field. -/
def priceTruthy : PricePy → Bool
  | .scal v => truthy v
  | .pdict _ _ => true

/-- `d.get(k1, d.get(k2, 0))` on a price dict. -/
def dictGet2 (k1 k2 : Option PyVal) : PyVal := k1.getD (k2.getD (.num 0))

/-- A raw flight offer, restricted to the fields the optimizer reads.
`itinDuration` is `itineraries[0].duration` when the `itineraries` list is
non-empty (`none` when it is absent or empty); `tag` stands for the opaque
identity/display payload that is passed through unchanged. -/
structure RawFlight where
  price : Option PricePy
  duration : Option DurVal
  itinDuration : Option DurVal
  rating : Option PyVal
  tag : ℕ
deriving Repr, DecidableEq

/-- A raw hotel offer, restricted to the fields the optimizer reads. -/
structure RawHotel where
  pricePerNight : Option PricePy
  price : Option PricePy
  rating : Option PyVal
  distance : Option PyVal
  distanceFromCenter : Option PyVal
  tag : ℕ
deriving Repr, DecidableEq

/-- A raw activity offer, restricted to the fields the optimizer reads. -/
structure RawAct where
  price : Option PricePy
  rating : Option PyVal
  minimumDuration : Option DurVal
  duration : Option DurVal
  tag : ℕ
deriving Repr, DecidableEq

/-! ## `generateOptimalItinerary` (backend/main.py) -/

/-- A normalized preference weight vector. -/
structure W3 where
  bw : ℚ
  qw : ℚ
  cw : ℚ
deriving Repr, DecidableEq

/-- The weight normalization at the top of `generateOptimalItinerary`: read
the three raw preference values with defaults `0.33 / 0.33 / 0.34`, add
them directly — with no clamping and no `float()` conversion, so a string
or `None` value raises a `TypeError` — and divide by the total when it is
positive, else fall back to `1/3` each. -/
def optWeights (p : PyMap3) : Except Unit W3 := do
  let b ← asArith (p.budget.getD (.num 0.33))
  let q ← asArith (p.quality.getD (.num 0.33))
  let c ← asArith (p.convenience.getD (.num 0.34))
  if 0 < b + q + c then
    pure ⟨b / (b + q + c), q / (b + q + c), c / (b + q + c)⟩
  else pure ⟨1/3, 1/3, 1/3⟩

/-- Price extraction of `normalize_flight_metrics`: read `price` with
default `0`, pull `total` (then `amount`) out of a dict value, then
`float(price) if price else 0`. -/
def flightPriceE (f : RawFlight) : Except Unit ℚ :=
  let p := f.price.getD (.scal (.num 0))
  let v := match p with
    | .scal v => v
    | .pdict t a => dictGet2 t a
  if truthy v then pyFloat v else pure 0

/-- Duration extraction of `normalize_flight_metrics` (in hours): parse a
`PT…` string; otherwise fall back to `itineraries[0].duration` when
itineraries exist, else default to 8 hours.  A flight without a `duration`
key reads the default `PT0H`, i.e. zero hours. -/
def flightDurationQ (f : RawFlight) : ℚ :=
  match f.duration.getD (.iso (some 0) none) with
  | .iso h m => isoHours h m
  | _ =>
    match f.itinDuration with
    | some (.iso h m) => isoHours h m
    | some _ => 8
    | none => 8

/-- Rating extraction of `normalize_flight_metrics`: default `4.0`, `None`
mapped to `4.0`, then `float(rating) if rating else 4.0`. -/
def flightRatingE (f : RawFlight) : Except Unit ℚ :=
  let r := f.rating.getD (.num 4)
  let r := if r = .pnone then .num 4 else r
  if truthy r then pyFloat r else pure 4

/-- Price extraction of `normalize_hotel_metrics`: prefer a truthy
`price_per_night`, else `price` with default `0`; dict values yield
`total` (then `amount`); then `float(price) if price else 0`. -/
def hotelPriceE (h : RawHotel) : Except Unit ℚ :=
  let p0 := h.pricePerNight.getD (.scal .pnone)
  let p := if priceTruthy p0 then p0 else h.price.getD (.scal (.num 0))
  let v := match p with
    | .scal v => v
    | .pdict t a => dictGet2 t a
  if truthy v then pyFloat v else pure 0

/-- Rating extraction of `normalize_hotel_metrics`: default `3.0`. -/
def hotelRatingE (h : RawHotel) : Except Unit ℚ :=
  let r := h.rating.getD (.num 3)
  let r := if r = .pnone then .num 3 else r
  if truthy r then pyFloat r else pure 3

/-- Distance extraction of `normalize_hotel_metrics`: `distance`, else
`distanceFromCenter`, else `5.0`; then `float(distance) if distance else 5.0`. -/
def hotelDistE (h : RawHotel) : Except Unit ℚ :=
  let d := h.distance.getD (h.distanceFromCenter.getD (.num 5))
  if truthy d then pyFloat d else pure 5

/-- Price extraction of `normalize_activity_metrics`: the `price` field
defaults to an empty dict; dict values yield `amount` (then `total`);
non-dict falsy values become `0`; then `float(price) if price else 0`. -/
def actPriceE (a : RawAct) : Except Unit ℚ :=
  let p := a.price.getD (.pdict none none)
  let v := match p with
    | .pdict t am => dictGet2 am t
    | .scal v0 => if truthy v0 then v0 else .num 0
  if truthy v then pyFloat v else pure 0

/-- Rating extraction of `normalize_activity_metrics`: default `4.0`. -/
def actRatingE (a : RawAct) : Except Unit ℚ :=
  let r := a.rating.getD (.num 4)
  let r := if r = .pnone then .num 4 else r
  if truthy r then pyFloat r else pure 4

/-- Duration extraction of `normalize_activity_metrics` (in hours): the
field is `minimumDuration`, or `duration` when that key is absent,
defaulting to the string `PT2H`; `PT…` strings are parsed, bare numbers
are taken as hours, anything else gives the 2-hour default. -/
def actDurationQ (a : RawAct) : ℚ :=
  match a.minimumDuration.getD (a.duration.getD (.iso (some 2) none)) with
  | .iso h m => isoHours h m
  | .numv q => q
  | _ => 2

/-- A flight with the `_price` / `_duration` / `_rating` / score fields
attached by `normalize_flight_metrics`.  Scores are on the 0–1 scale used
by `generateOptimalItinerary`. -/
structure NormFlight where
  tag : ℕ
  price : ℚ
  duration : ℚ
  rating : ℚ
  bscore : ℚ
  qscore : ℚ
  cscore : ℚ
  cat : ℚ
deriving Repr, DecidableEq

/-- A hotel with the fields attached by `normalize_hotel_metrics`;
`isDummy` models `id == dummy-hotel`. -/
structure NormHotel where
  tag : ℕ
  isDummy : Bool
  price : ℚ
  rating : ℚ
  distance : ℚ
  bscore : ℚ
  qscore : ℚ
  cscore : ℚ
  cat : ℚ
deriving Repr, DecidableEq

/-- An activity with the fields attached by `normalize_activity_metrics`;
`isDummy` models `id == dummy-activity`. -/
structure NormAct where
  tag : ℕ
  isDummy : Bool
  price : ℚ
  rating : ℚ
  duration : ℚ
  bscore : ℚ
  qscore : ℚ
  cscore : ℚ
  cat : ℚ
deriving Repr, DecidableEq

/-- Python `max(l) if l else d`. -/
def pyMaxD (d : ℚ) : List ℚ → ℚ
  | [] => d
  | x :: xs => xs.foldl max x

/-- Sequential effectful map over `Except`: the per-record field extraction
loops of the normalizers, stopping at the first raised exception. -/
def mapME {α β : Type} (f : α → Except Unit β) : List α → Except Unit (List β)
  | [] => .ok []
  | x :: xs => do
    let y ← f x
    let ys ← mapME f xs
    pure (y :: ys)

/-- `normalize_flight_metrics` inside `generateOptimalItinerary`.  The
source extracts price, duration and rating in one pass per flight; the
extraction here is split into three traversals, which errors exactly when
the source raises (the `Except Unit` error carries no payload). -/
def normalizeFlights (w : W3) (fs : List RawFlight) :
    Except Unit (List NormFlight) :=
  if fs.isEmpty then pure []
  else do
    let prices ← mapME flightPriceE fs
    let durations := fs.map flightDurationQ
    let ratings ← mapME flightRatingE fs
    let maxPrice := pyMaxD 1 prices
    let maxDuration := pyMaxD 1 durations
    pure <| (fs.zip (prices.zip (durations.zip ratings))).map fun fx =>
      let p := fx.2.1
      let d := fx.2.2.1
      let r := fx.2.2.2
      let bs := if 0 < maxPrice then 1 - p / maxPrice else 0.5
      let qs := r / 5
      let cs := if 0 < maxDuration then 1 - d / maxDuration else 0.5
      ⟨fx.1.tag, p, d, r, bs, qs, cs, w.bw * bs + w.qw * qs + w.cw * cs⟩

/-- `normalize_hotel_metrics` inside `generateOptimalItinerary`. -/
def normalizeHotels (w : W3) (hs : List RawHotel) :
    Except Unit (List NormHotel) :=
  if hs.isEmpty then pure []
  else do
    let prices ← mapME hotelPriceE hs
    let ratings ← mapME hotelRatingE hs
    let distances ← mapME hotelDistE hs
    let maxPrice := pyMaxD 1 prices
    let maxDistance := pyMaxD 1 distances
    pure <| (hs.zip (prices.zip (ratings.zip distances))).map fun hx =>
      let p := hx.2.1
      let r := hx.2.2.1
      let d := hx.2.2.2
      let bs := if 0 < maxPrice then 1 - p / maxPrice else 0.5
      let qs := r / 5
      let cs := if 0 < maxDistance then 1 - d / maxDistance else 0.5
      ⟨hx.1.tag, false, p, r, d, bs, qs, cs, w.bw * bs + w.qw * qs + w.cw * cs⟩

/-- `normalize_activity_metrics` inside `generateOptimalItinerary`. -/
def normalizeActs (w : W3) (acts : List RawAct) :
    Except Unit (List NormAct) :=
  if acts.isEmpty then pure []
  else do
    let prices ← mapME actPriceE acts
    let ratings ← mapME actRatingE acts
    let durations := acts.map actDurationQ
    let maxPrice := pyMaxD 1 prices
    let maxDuration := pyMaxD 1 durations
    pure <| (acts.zip (prices.zip (ratings.zip durations))).map fun ax =>
      let p := ax.2.1
      let r := ax.2.2.1
      let d := ax.2.2.2
      let bs := if 0 < maxPrice then 1 - p / maxPrice else 0.5
      let qs := r / 5
      let cs := if 0 < maxDuration then 1 - d / maxDuration else 0.5
      ⟨ax.1.tag, false, p, r, d, bs, qs, cs, w.bw * bs + w.qw * qs + w.cw * cs⟩

/-- The dummy hotel substituted when no hotels were supplied: price `0`,
neutral default scores, `_category_score = 0.53`. -/
def dummyHotel : NormHotel := ⟨0, true, 0, 3, 5, 0.5, 0.6, 0.5, 0.53⟩

/-- The dummy activity substituted when no activities were supplied:
price `0`, neutral default scores, `_category_score = 0.6`. -/
def dummyAct : NormAct := ⟨0, true, 0, 4, 2, 0.5, 0.8, 0.5, 0.6⟩

/-- A candidate combination with its total price and mean score. -/
structure Combo where
  flight : NormFlight
  hotel : NormHotel
  activity : NormAct
  total_price : ℚ
  total_score : ℚ
deriving Repr, DecidableEq

/-- The budget filter of the combination search: a triple is skipped iff
its total price exceeds the budget AND the hotel is not the dummy AND the
activity is not the dummy. -/
def comboSkipped (budget : ℚ) (f : NormFlight) (h : NormHotel)
    (a : NormAct) : Bool :=
  decide (budget < f.price + h.price + a.price) && !h.isDummy && !a.isDummy

/-- The running best score (`best_total_score` starts at `-1`). -/
def bestScoreOf : Option Combo → ℚ
  | none => -1
  | some c => c.total_score

/-- The combination built from one triple of the search loop: the summed
total price and the mean of the three category scores. -/
def mkCombo (t : NormFlight × NormHotel × NormAct) : Combo :=
  ⟨t.1, t.2.1, t.2.2, t.1.price + t.2.1.price + t.2.2.price,
    (t.1.cat + t.2.1.cat + t.2.2.cat) / 3⟩

/-- One iteration of the triple-nested search loop: skip over-budget
non-dummy triples, otherwise replace the incumbent when the new mean score
is strictly greater. -/
def searchStep (budget : ℚ) (best : Option Combo)
    (t : NormFlight × NormHotel × NormAct) : Option Combo :=
  if comboSkipped budget t.1 t.2.1 t.2.2 then best
  else if bestScoreOf best < (t.1.cat + t.2.1.cat + t.2.2.cat) / 3 then
    some (mkCombo t)
  else best

/-- The Cartesian product in loop order (flight outermost, activity
innermost). -/
def triples (fs : List NormFlight) (hs : List NormHotel)
    (acts : List NormAct) : List (NormFlight × NormHotel × NormAct) :=
  fs.flatMap fun f => hs.flatMap fun h => acts.map fun a => (f, h, a)

/-- The success payload of `generateOptimalItinerary` (the insight text and
display-only passthrough fields are omitted from the model). -/
structure SuccessData where
  flight : NormFlight
  hotel : NormHotel
  activity : NormAct
  total_price : ℚ
  total_score : ℚ
  hotelIsDummy : Bool
  activityIsDummy : Bool
deriving Repr, DecidableEq

/-- The result dict of `generateOptimalItinerary`: two structured failures
(each carrying `ok = False`) and the success shape (`ok = True`). -/
inductive OptOutcome where
  | errNoFlights
  | errNoCombo
  | success (d : SuccessData)
deriving Repr, DecidableEq

/-- The `ok` field of the result dict. -/
def OptOutcome.okFlag : OptOutcome → Bool
  | .success _ => true
  | _ => false

/-- `generateOptimalItinerary` of `backend/main.py`: normalize the weights,
normalize the three candidate lists (this happens before the empty-flights
check), substitute a dummy for an empty hotel or activity list, report a
structured failure when no flights were given, then search the Cartesian
product under the budget filter and return the best combination, or a
structured failure when none qualifies. -/
def generateOptimalItinerary (flights : List RawFlight)
    (hotels : List RawHotel) (acts : List RawAct) (preferences : PyMap3)
    (userBudget : ℚ) : Except Unit OptOutcome := do
  let w ← optWeights preferences
  let nf ← normalizeFlights w flights
  let nh0 ← normalizeHotels w hotels
  let na0 ← normalizeActs w acts
  if nf.isEmpty then pure .errNoFlights
  else
    match (triples nf (if nh0.isEmpty then [dummyHotel] else nh0)
        (if na0.isEmpty then [dummyAct] else na0)).foldl
        (searchStep userBudget) none with
    | none => pure .errNoCombo
    | some c =>
      pure (.success ⟨c.flight, c.hotel, c.activity, c.total_price,
        c.total_score, c.hotel.isDummy, c.activity.isDummy⟩)

/-! ## The ranking path: `apply_preference_filters_to_activities` -/

/-- The exponentiation abstraction: Python `x ** e` on floats for the
fractional exponents 1.5, 1.3 and 1.2 used by the preference amplifier.
Its exact value is irrational and float-rounding-dependent; the verified
properties need only that it maps non-negative bases to non-negative
results, which float `**` satisfies on every input the amplifier feeds it. -/
structure PowModel where
  pow : ℚ → ℚ → ℚ
  nonneg : ∀ x e, 0 ≤ x → 0 ≤ pow x e

/-- A concrete instance of the exponentiation abstraction, used to evaluate
witnesses and counterexamples on inputs whose results do not depend on the
exponentiation values. -/
def powId : PowModel := ⟨fun x _ => x, fun _ _ hx => hx⟩

/-- Activity price on the ranking path: a dict value yields
`_safe_float(d.get(amount) or d.get(total))`, a scalar value
`_safe_float(value)`; an absent `price` key defaults to an empty dict. -/
def rankActPrice (a : RawAct) : Option ℚ :=
  match a.price.getD (.pdict none none) with
  | .pdict t am =>
    let v := am.getD .pnone
    safeFloatV (if truthy v then v else t.getD .pnone)
  | .scal v => safeFloatV v

/-- Activity rating on the ranking path: `_safe_float(a.get(rating))`. -/
def rankActRating (a : RawAct) : Option ℚ := safeFloatV (a.rating.getD .pnone)

/-- The duration-typed field used by the ranking path:
`a.get(minimumDuration) or a.get(duration)` (truthiness chain). -/
def rankActDurField (a : RawAct) : DurVal :=
  let m := a.minimumDuration.getD .dnone
  if durTruthy m then m else a.duration.getD .dnone

/-- `_extract_duration_hours`: `None` for `None` or a non-`P` string; `P#D`
strings convert at 24 hours per day; `PT…` strings parse hours and
minutes; bare numbers are taken as hours. -/
def extractDurationHours : DurVal → Option ℚ
  | .dnone => none
  | .numv q => some q
  | .isoDays d => some ((24 : ℚ) * d)
  | .iso h m => some (isoHours h m)
  | .strOther => none

/-- `_extract_duration_days`: extracted hours divided by 24. -/
def extractDurationDays (v : DurVal) : Option ℚ :=
  (extractDurationHours v).map (· / 24)

/-- Activity duration in hours on the ranking path. -/
def rankActHours (a : RawAct) : Option ℚ :=
  extractDurationHours (rankActDurField a)

/-- Clamp to the unit interval. -/
def clamp01 (r : ℚ) : ℚ := max 0 (min 1 r)

/-- `inverse_normalize` of the ranking paths: `0.5` when any input is
absent or the range is degenerate, else one minus the clamped position in
the min–max range (lower raw values score higher). -/
def inverse_normalize (value minv maxv : Option ℚ) : ℚ :=
  match value, minv, maxv with
  | some v, some mn, some mx =>
    if mx = mn then 0.5 else 1 - clamp01 ((v - mn) / (mx - mn))
  | _, _, _ => 0.5

/-- `forward_normalize` of the activity ranking path. -/
def forward_normalize (value minv maxv : Option ℚ) : ℚ :=
  match value, minv, maxv with
  | some v, some mn, some mx =>
    if mx = mn then 0.5 else clamp01 ((v - mn) / (mx - mn))
  | _, _, _ => 0.5

/-- Python `min(l) if l else None`. -/
def pyMinO : List ℚ → Option ℚ
  | [] => none
  | x :: xs => some (xs.foldl min x)

/-- Python `max(l) if l else None`. -/
def pyMaxO : List ℚ → Option ℚ
  | [] => none
  | x :: xs => some (xs.foldl max x)

/-- Python `sorted(l)` (ascending, on rationals). -/
def sortAsc (l : List ℚ) : List ℚ := l.mergeSort fun a b => decide (a ≤ b)

/-- The 75th-percentile pick of the amplifier:
`sorted[int(len * 0.75)] if len > 3 else sorted[-1]`. -/
def pct75 (l : List ℚ) : ℚ :=
  if 3 < (sortAsc l).length then (sortAsc l).getD (3 * (sortAsc l).length / 4) 0
  else (sortAsc l).getD ((sortAsc l).length - 1) 0

/-- The median pick of the amplifier:
`sorted[len // 2] if len > 1 else sorted[0]`. -/
def pct50 (l : List ℚ) : ℚ :=
  if 1 < (sortAsc l).length then (sortAsc l).getD ((sortAsc l).length / 2) 0
  else (sortAsc l).getD 0 0

/-- The 25th-percentile pick of the amplifier:
`sorted[int(len * 0.25)] if len > 3 else sorted[0]`. -/
def pct25 (l : List ℚ) : ℚ :=
  if 3 < (sortAsc l).length then (sortAsc l).getD ((sortAsc l).length / 4) 0
  else (sortAsc l).getD 0 0

/-- Extreme-tier budget boost (weight at least 0.7): exponential reshaping
scaled by how far the weight exceeds 0.7, capped at 1; applied only to a
strictly positive base score. -/
def budgetBoost7 (P : PowModel) (bw base : ℚ) : ℚ :=
  if 0 < base then
    min 1 (P.pow base 1.5 * (1 + 0.8 * ((bw - 0.7) / 0.3)))
  else base

/-- Extreme-tier budget penalty: when the price exceeds the 75th
percentile (and the pool maximum exceeds it), subtract a capped power of
the relative excess, floored at 0. -/
def budgetPenalty7 (P : PowModel) (price : Option ℚ) (prices : List ℚ)
    (bn : ℚ) : ℚ :=
  match price, pyMaxO prices with
  | some pr, some mx =>
    if pct75 prices < pr ∧ pct75 prices < mx then
      max 0 (bn -
        min 0.9 (0.7 * P.pow ((pr - pct75 prices) / (mx - pct75 prices + 0.01)) 1.5))
    else bn
  | _, _ => bn

/-- Strong-tier budget boost (weight in [0.6, 0.7)): `base ** 1.3`, capped. -/
def budgetBoost6 (P : PowModel) (base : ℚ) : ℚ :=
  if 0 < base then min 1 (P.pow base 1.3) else base

/-- Strong-tier budget penalty, keyed to the median price. -/
def budgetPenalty6 (P : PowModel) (price : Option ℚ) (prices : List ℚ)
    (bn : ℚ) : ℚ :=
  match price, pyMaxO prices with
  | some pr, some mx =>
    if pct50 prices < pr ∧ pct50 prices < mx then
      max 0 (bn -
        min 0.7 (0.5 * P.pow ((pr - pct50 prices) / (mx - pct50 prices + 0.01)) 1.2))
    else bn
  | _, _ => bn

/-- The budget-axis amplification of step D: boost then penalty, tier
selected by the normalized budget weight. -/
def amplifyBudget (P : PowModel) (bw : ℚ) (price : Option ℚ)
    (prices : List ℚ) (base : ℚ) : ℚ :=
  if 0.7 ≤ bw then budgetPenalty7 P price prices (budgetBoost7 P bw base)
  else if 0.6 ≤ bw then budgetPenalty6 P price prices (budgetBoost6 P base)
  else base

/-- Extreme-tier quality reshaping: boost ratings of at least 4.5,
penalize ratings strictly below 4.0. -/
def qualityReshape7 (P : PowModel) (rating base : ℚ) : ℚ :=
  if 4.5 ≤ rating then
    min 1 (base + min 0.3 (0.2 * P.pow ((rating - 4.5) / 0.5) 1.5))
  else if rating < 4 then
    max 0 (base - min 0.6 (0.4 * P.pow ((4 - rating) / 4) 1.5))
  else base

/-- Strong-tier quality reshaping (linear boost and penalty). -/
def qualityReshape6 (rating base : ℚ) : ℚ :=
  if 4.5 ≤ rating then
    min 1 (base + min 0.2 (0.15 * ((rating - 4.5) / 0.5)))
  else if rating < 4 then
    max 0 (base - min 0.4 (0.3 * ((4 - rating) / 4)))
  else base

/-- The quality-axis amplification of step D. -/
def amplifyQuality (P : PowModel) (qw rating base : ℚ) : ℚ :=
  if 0.7 ≤ qw then qualityReshape7 P rating base
  else if 0.6 ≤ qw then qualityReshape6 rating base
  else base

/-- Extreme-tier convenience reshaping: boost durations at or below the
25th percentile (scaled by how far the weight exceeds 0.7), penalize
durations above the 75th percentile. -/
def convReshape7 (P : PowModel) (cw dur : ℚ) (durations : List ℚ)
    (base : ℚ) : ℚ :=
  match pyMaxO durations with
  | some mx =>
    if dur ≤ pct25 durations then
      min 1 (base +
        min 0.4 (0.3 * P.pow ((pct25 durations - dur) / (pct25 durations + 0.1)) 1.5 *
          (1 + 0.6 * ((cw - 0.7) / 0.3))))
    else if pct75 durations < dur ∧ pct75 durations < mx then
      max 0 (base -
        min 0.7 (0.5 * P.pow ((dur - pct75 durations) / (mx - pct75 durations + 0.1)) 1.5))
    else base
  | none => base

/-- Strong-tier convenience reshaping, keyed to the median duration. -/
def convReshape6 (dur : ℚ) (durations : List ℚ) (base : ℚ) : ℚ :=
  match pyMaxO durations with
  | some mx =>
    if dur ≤ pct50 durations then
      min 1 (base + min 0.3 (0.25 * ((pct50 durations - dur) / (pct50 durations + 0.1))))
    else if pct75 durations < dur ∧ pct75 durations < mx then
      max 0 (base - min 0.5 (0.4 * ((dur - pct75 durations) / (mx - pct75 durations + 0.1))))
    else base
  | none => base

/-- The convenience-axis amplification of step D. -/
def amplifyConvenience (P : PowModel) (cw dur : ℚ) (durations : List ℚ)
    (base : ℚ) : ℚ :=
  if 0.7 ≤ cw then convReshape7 P cw dur durations base
  else if 0.6 ≤ cw then convReshape6 dur durations base
  else base

/-- An activity record as the caller sees it after
`apply_preference_filters_to_activities`: the original fields plus the
annotation keys the function may set in place (`none` = key never set). -/
structure ScoredAct where
  orig : RawAct
  long_tour : Option Bool
  too_expensive : Option Bool
  low_quality : Option Bool
  budget_score : Option ℚ
  quality_score : Option ℚ
  convenience_score : Option ℚ
  total_score : Option ℚ
deriving Repr, DecidableEq

/-- An un-annotated activity record (no keys added). -/
def plainAct (a : RawAct) : ScoredAct :=
  ⟨a, none, none, none, none, none, none, none⟩

/-- Step A: the `long_tour` flag — set when a trip duration is known and
the activity duration in days strictly exceeds it, else `False`. -/
def stepLongTour (days : Option ℚ) (a : RawAct) : Bool :=
  match days with
  | some td =>
    match extractDurationDays (rankActDurField a) with
    | some dd => decide (td < dd)
    | none => false
  | none => false

/-- The price / rating / duration pools used for normalization, means and
percentiles: defined values that are non-negative. -/
def actPricePool (acts : List RawAct) : List ℚ :=
  (acts.filterMap rankActPrice).filter fun p => decide (0 ≤ p)

/-- The rating pool (defined, non-negative ratings). -/
def actRatingPool (acts : List RawAct) : List ℚ :=
  (acts.filterMap rankActRating).filter fun r => decide (0 ≤ r)

/-- The duration pool (defined, non-negative durations in hours). -/
def actDurationPool (acts : List RawAct) : List ℚ :=
  (acts.filterMap rankActHours).filter fun d => decide (0 ≤ d)

/-- Step B: flag activities priced above 1.6 times the pool mean when the
raw (un-normalized) budget preference is at least 0.6. -/
def stepTooExpensive (rawB : ℚ) (prices : List ℚ) (a : RawAct) : Bool :=
  if 0.6 ≤ rawB then
    if prices ≠ [] then
      match rankActPrice a with
      | some pr => decide (prices.sum / (prices.length : ℚ) * 1.6 < pr)
      | none => false
    else false
  else false

/-- Step C: flag activities rated strictly below 3.5 when the raw
(un-normalized) quality preference is at least 0.6. -/
def stepLowQuality (rawQ : ℚ) (a : RawAct) : Bool :=
  if 0.6 ≤ rawQ then
    match rankActRating a with
    | some r => decide (r < 3.5)
    | none => false
  else false

/-- The base (pre-amplification) budget score of step D: min–max inverse
normalization of the price, `0.5` when the price is unknown or the price
pool is degenerate. -/
def actBaseBudget (prices : List ℚ) (price : Option ℚ) : ℚ :=
  match price, pyMinO prices, pyMaxO prices with
  | some pr, some mn, some mx =>
    if mn < mx then inverse_normalize (some pr) (some mn) (some mx) else 0.5
  | _, _, _ => 0.5

/-- The base quality score of step D: the rating forward-normalized on the
absolute 0–5 scale (not relative to the candidate pool). -/
def actBaseQuality (rating : ℚ) : ℚ :=
  forward_normalize (some rating) (some 0) (some 5)

/-- The base convenience score of step D: min–max inverse normalization of
the duration against the duration pool. -/
def actBaseConvenience (durations : List ℚ) (dur : ℚ) : ℚ :=
  match pyMinO durations, pyMaxO durations with
  | some mn, some mx =>
    if mn < mx then inverse_normalize (some dur) (some mn) (some mx) else 0.5
  | _, _ => 0.5

/-- The final 0–1 budget value of one activity (amplified only when a
preferences dict was supplied). -/
def actNormBudget (P : PowModel) (hasPrefs : Bool) (w : W3)
    (prices : List ℚ) (a : RawAct) : ℚ :=
  if hasPrefs then
    amplifyBudget P w.bw (rankActPrice a) prices
      (actBaseBudget prices (rankActPrice a))
  else actBaseBudget prices (rankActPrice a)

/-- The final 0–1 quality value of one activity (rating defaults to 3.5). -/
def actNormQuality (P : PowModel) (hasPrefs : Bool) (w : W3) (a : RawAct) : ℚ :=
  if hasPrefs then
    amplifyQuality P w.qw ((rankActRating a).getD 3.5)
      (actBaseQuality ((rankActRating a).getD 3.5))
  else actBaseQuality ((rankActRating a).getD 3.5)

/-- The final 0–1 convenience value of one activity (duration defaults to
2 hours). -/
def actNormConvenience (P : PowModel) (hasPrefs : Bool) (w : W3)
    (durations : List ℚ) (a : RawAct) : ℚ :=
  if hasPrefs then
    amplifyConvenience P w.cw ((rankActHours a).getD 2) durations
      (actBaseConvenience durations ((rankActHours a).getD 2))
  else actBaseConvenience durations ((rankActHours a).getD 2)

/-- Step D: the stored values — the three axis scores on the 0–100 display
scale rounded to 2 decimals, and the weighted total on the 0–1 scale
rounded to 4 decimals. -/
def scoreAct (P : PowModel) (hasPrefs : Bool) (w : W3)
    (prices durations : List ℚ) (a : RawAct) : ℚ × ℚ × ℚ × ℚ :=
  (pyRound 2 (actNormBudget P hasPrefs w prices a * 100),
   pyRound 2 (actNormQuality P hasPrefs w a * 100),
   pyRound 2 (actNormConvenience P hasPrefs w durations a * 100),
   pyRound 4 (actNormBudget P hasPrefs w prices a * w.bw +
     actNormQuality P hasPrefs w a * w.qw +
     actNormConvenience P hasPrefs w durations a * w.cw))

/-- `long_tour` lookup with default `False` (the partition predicate). -/
def longOf (a : ScoredAct) : Bool := a.long_tour.getD false

/-- `total_score` lookup with default `0` (the sort key). -/
def scoreOf (a : ScoredAct) : ℚ := a.total_score.getD 0

/-- Python `list.sort(key=k, reverse=True)`: a stable sort putting larger
keys first, modelled by the stable `List.mergeSort`. -/
def sortDescBy {α : Type} (k : α → ℚ) (l : List α) : List α :=
  l.mergeSort fun a b => decide (k b ≤ k a)

/-- Step E: split into regular and long-tour groups, sort each stably by
`total_score` descending, concatenate regular-then-long-tour. -/
def sortStage (l : List ScoredAct) : List ScoredAct :=
  let regular := l.filter fun a => !longOf a
  let longT := l.filter fun a => longOf a
  sortDescBy scoreOf regular ++ sortDescBy scoreOf longT

/-- One fully annotated activity record: the original fields, the three
flags (B/C flags only set when a raw preference pair is present, i.e. a
preferences dict was supplied) and the four stored scores of step D. -/
def scoredActMk (P : PowModel) (rawBQ : Option (ℚ × ℚ)) (w : W3)
    (days : Option ℚ) (prices durations : List ℚ) (a : RawAct) : ScoredAct :=
  { orig := a
    long_tour := some (stepLongTour days a)
    too_expensive := rawBQ.map fun r => stepTooExpensive r.1 prices a
    low_quality := rawBQ.map fun r => stepLowQuality r.2 a
    budget_score := some (scoreAct P rawBQ.isSome w prices durations a).1
    quality_score := some (scoreAct P rawBQ.isSome w prices durations a).2.1
    convenience_score := some (scoreAct P rawBQ.isSome w prices durations a).2.2.1
    total_score := some (scoreAct P rawBQ.isSome w prices durations a).2.2.2 }

/-- The weight-normalization prefix of the activities ranking body: parse
the three raw preference floats (raising on non-numeric values), keep the
raw budget/quality pair for the flag passes, and normalize — equal thirds
when the preferences dict is falsy or the raw total is non-positive, else
division by the total. -/
def rankActWeights (prefs : Option PyMap3) :
    Except Unit (Option (ℚ × ℚ) × W3) :=
  match prefs with
  | some p => do
    let rb ← pyFloat (p.budget.getD (.num 0.33))
    let rq ← pyFloat (p.quality.getD (.num 0.33))
    let rc ← pyFloat (p.convenience.getD (.num 0.34))
    if rb + rq + rc ≤ 0 then pure (some (rb, rq), (⟨1/3, 1/3, 1/3⟩ : W3))
    else
      pure (some (rb, rq),
        (⟨rb / (rb + rq + rc), rq / (rb + rq + rc), rc / (rb + rq + rc)⟩ : W3))
  | none => pure (none, (⟨1/3, 1/3, 1/3⟩ : W3))

/-- The try-block body of `apply_preference_filters_to_activities`: weight
normalization (which raises on non-numeric preference values), the three
flag passes, scoring, and the final sort.  `prefs = none` models a
missing or falsy preferences dict (default weights, no B/C flags, no
amplification). -/
def rankActBody (P : PowModel) (acts : List RawAct) (prefs : Option PyMap3)
    (days : Option ℚ) : Except Unit (List ScoredAct) :=
  rankActWeights prefs >>= fun wr =>
    pure <| sortStage <| acts.map fun a =>
      scoredActMk P wr.1 wr.2 days (actPricePool acts) (actDurationPool acts) a

/-- `apply_preference_filters_to_activities` of `backend/main.py`: an empty
list is returned as-is; the scoring body runs inside a catch-all handler,
and on any internal error the caller's list — whose records at that point
carry no annotations, since the only raising step precedes them — is
returned unsorted. -/
def apply_preference_filters_to_activities (P : PowModel)
    (acts : List RawAct) (prefs : Option PyMap3) (days : Option ℚ) :
    List ScoredAct :=
  if acts.isEmpty then acts.map plainAct
  else
    match rankActBody P acts prefs days with
    | .ok l => l
    | .error _ => acts.map plainAct

/-! ## The ranking path: `apply_preference_weights_to_hotels` -/

/-- A hotel record as the caller sees it after
`apply_preference_weights_to_hotels`. -/
structure ScoredHotel where
  orig : RawHotel
  pref_score : Option ℚ
  comp_price : Option ℚ
  comp_rating : Option ℚ
  comp_distance : Option ℚ
deriving Repr, DecidableEq

/-- An un-annotated hotel record. -/
def plainHotel (h : RawHotel) : ScoredHotel := ⟨h, none, none, none, none⟩

/-- The `_safe_float` of `apply_preference_weights_to_hotels` applied to a
price-typed field: this variant has no dict branch, so `float(dict)`
raises a caught `TypeError` and yields `none`. -/
def safeFloatHP : PricePy → Option ℚ
  | .scal v => safeFloatV v
  | .pdict _ _ => none

/-- Hotel price on the ranking path:
`_safe_float(h.get(price_per_night) or h.get(price))`. -/
def rankHotelPrice (h : RawHotel) : Option ℚ :=
  let a := h.pricePerNight.getD (.scal .pnone)
  safeFloatHP (if priceTruthy a then a else h.price.getD (.scal .pnone))

/-- Hotel distance on the ranking path (only the `distance` key is read). -/
def rankHotelDistance (h : RawHotel) : Option ℚ :=
  safeFloatV (h.distance.getD .pnone)

/-- Hotel rating on the ranking path. -/
def rankHotelRating (h : RawHotel) : Option ℚ :=
  safeFloatV (h.rating.getD .pnone)

/-- The weight normalization of `apply_preference_weights_to_hotels`:
equal thirds when the raw total is non-positive, else division by the
total. -/
def hotelRankWeights (rb rq rc : ℚ) : W3 :=
  if rb + rq + rc ≤ 0 then ⟨1/3, 1/3, 1/3⟩
  else ⟨rb / (rb + rq + rc), rq / (rb + rq + rc), rc / (rb + rq + rc)⟩

/-- Price axis of the hotels ranking path: min–max inverse normalization
against the defined price values of the whole list, `0.5` when none are
defined (`inverse_normalize` itself yields `0.5` for an unknown price or
a degenerate range). -/
def hotelPriceScore (priceVals : List ℚ) (h : RawHotel) : ℚ :=
  if (pyMinO priceVals).isSome then
    inverse_normalize (rankHotelPrice h) (pyMinO priceVals) (pyMaxO priceVals)
  else 0.5

/-- Quality axis of the hotels ranking path: the rating clamped into 0–5
and divided by 5 (absolute, not min–max), `0.5` when undefined. -/
def hotelRatingScore (h : RawHotel) : ℚ :=
  match (rankHotelRating h).map (fun r => min (max r 0) 5) with
  | some rv => rv / 5
  | none => 0.5

/-- Distance axis of the hotels ranking path. -/
def hotelDistScore (distVals : List ℚ) (h : RawHotel) : ℚ :=
  if (pyMinO distVals).isSome then
    inverse_normalize (rankHotelDistance h) (pyMinO distVals)
      (pyMaxO distVals)
  else 0.5

/-- One annotated hotel record: the weighted total and the three axis
components, each rounded to four decimals, written onto the caller's
record.  The pools are those of the full input list (Python computes
their min/max once per call, with the same values). -/
def scoredHotelMk (w : W3) (priceVals distVals : List ℚ) (h : RawHotel) :
    ScoredHotel :=
  { orig := h
    pref_score := some (pyRound 4 (w.bw * hotelPriceScore priceVals h +
      w.qw * hotelRatingScore h + w.cw * hotelDistScore distVals h))
    comp_price := some (pyRound 4 (hotelPriceScore priceVals h))
    comp_rating := some (pyRound 4 (hotelRatingScore h))
    comp_distance := some (pyRound 4 (hotelDistScore distVals h)) }

/-- The try-block body of `apply_preference_weights_to_hotels`: weight
normalization via `float()` (raising on non-numeric values), per-record
annotation, and an in-place stable sort by descending preference score. -/
def hotelRankBody (hs : List RawHotel) (p : PyMap3) :
    Except Unit (List ScoredHotel) := do
  let rb ← pyFloat (p.budget.getD (.num 0.33))
  let rq ← pyFloat (p.quality.getD (.num 0.33))
  let rc ← pyFloat (p.convenience.getD (.num 0.34))
  pure <| sortDescBy (fun sh => sh.pref_score.getD 0) <|
    hs.map (scoredHotelMk (hotelRankWeights rb rq rc)
      (hs.filterMap rankHotelPrice) (hs.filterMap rankHotelDistance))

/-- `apply_preference_weights_to_hotels` of `backend/main.py`: the input is
returned unchanged when the hotel list or the preferences dict is falsy
and on any internal error; otherwise every record is annotated in place
and the caller's list is sorted in place by descending preference score. -/
def apply_preference_weights_to_hotels (hs : List RawHotel)
    (prefs : Option PyMap3) : List ScoredHotel :=
  if hs.isEmpty then hs.map plainHotel
  else
    match prefs with
    | none => hs.map plainHotel
    | some p =>
      match hotelRankBody hs p with
      | .ok l => l
      | .error _ => hs.map plainHotel

/-- The content of the caller's own hotel list after the call: Python
`list.sort()` reorders the caller's list object in place and dict key
assignment mutates the caller's records in place, so after the call the
caller's variable holds exactly the returned (annotated, sorted) records. -/
def hotelsCallerView (hs : List RawHotel) (prefs : Option PyMap3) :
    List ScoredHotel := apply_preference_weights_to_hotels hs prefs

/-! ## Basic bound lemmas -/

theorem roundMonoQ {x y : ℚ} (h : x ≤ y) : round x ≤ round y := by
  rw [round_eq, round_eq]
  exact Int.floor_mono (by linarith)

theorem pyRound_le_intCast {n : ℕ} {x : ℚ} {k : ℤ} (h : x ≤ (k : ℚ)) :
    pyRound n x ≤ (k : ℚ) := by
  unfold pyRound
  rw [div_le_iff₀ (by positivity)]
  have h1 : x * 10 ^ n ≤ ((k * 10 ^ n : ℤ) : ℚ) := by
    push_cast
    exact mul_le_mul_of_nonneg_right h (by positivity)
  have h2 : round (x * 10 ^ n) ≤ k * 10 ^ n := by
    calc round (x * 10 ^ n) ≤ round ((k * 10 ^ n : ℤ) : ℚ) := roundMonoQ h1
    _ = k * 10 ^ n := round_intCast _
  calc ((round (x * 10 ^ n) : ℤ) : ℚ) ≤ ((k * 10 ^ n : ℤ) : ℚ) := by exact_mod_cast h2
  _ = (k : ℚ) * 10 ^ n := by push_cast; ring

theorem intCast_le_pyRound {n : ℕ} {x : ℚ} {k : ℤ} (h : (k : ℚ) ≤ x) :
    (k : ℚ) ≤ pyRound n x := by
  unfold pyRound
  rw [le_div_iff₀ (by positivity)]
  have h1 : ((k * 10 ^ n : ℤ) : ℚ) ≤ x * 10 ^ n := by
    push_cast
    exact mul_le_mul_of_nonneg_right h (by positivity)
  have h2 : k * 10 ^ n ≤ round (x * 10 ^ n) := by
    calc (k * 10 ^ n : ℤ) = round ((k * 10 ^ n : ℤ) : ℚ) := (round_intCast _).symm
    _ ≤ round (x * 10 ^ n) := roundMonoQ h1
  calc (k : ℚ) * 10 ^ n = ((k * 10 ^ n : ℤ) : ℚ) := by push_cast; ring
  _ ≤ ((round (x * 10 ^ n) : ℤ) : ℚ) := by exact_mod_cast h2

theorem pyRound_nonneg {n : ℕ} {x : ℚ} (hx : 0 ≤ x) : 0 ≤ pyRound n x := by
  have := intCast_le_pyRound (n := n) (k := 0) (by exact_mod_cast hx)
  simpa using this

theorem clamp01_nonneg (r : ℚ) : 0 ≤ clamp01 r := le_max_left 0 _

theorem clamp01_le_one (r : ℚ) : clamp01 r ≤ 1 :=
  max_le (by norm_num) (min_le_left 1 r)

theorem half_mem01 : ((0:ℚ) ≤ 0.5) ∧ ((0.5:ℚ) ≤ 1) := by norm_num

theorem clamp01_mem (r : ℚ) : 0 ≤ clamp01 r ∧ clamp01 r ≤ 1 :=
  ⟨clamp01_nonneg r, clamp01_le_one r⟩

theorem one_sub_clamp01_mem (r : ℚ) : 0 ≤ 1 - clamp01 r ∧ 1 - clamp01 r ≤ 1 :=
  ⟨by linarith [clamp01_le_one r], by linarith [clamp01_nonneg r]⟩

theorem inverse_normalize_mem (v mn mx : Option ℚ) :
    0 ≤ inverse_normalize v mn mx ∧ inverse_normalize v mn mx ≤ 1 := by
  unfold inverse_normalize
  rcases v with _ | v <;> rcases mn with _ | mn <;> rcases mx with _ | mx <;>
    simp only
  any_goals exact half_mem01
  split
  · exact half_mem01
  · exact one_sub_clamp01_mem _

theorem forward_normalize_mem (v mn mx : Option ℚ) :
    0 ≤ forward_normalize v mn mx ∧ forward_normalize v mn mx ≤ 1 := by
  unfold forward_normalize
  rcases v with _ | v <;> rcases mn with _ | mn <;> rcases mx with _ | mx <;>
    simp only
  any_goals exact half_mem01
  split
  · exact half_mem01
  · exact clamp01_mem _

theorem seed_le_foldl_max : ∀ (l : List ℚ) (a : ℚ), a ≤ l.foldl max a
  | [], a => le_refl a
  | b :: t, a => le_trans (le_max_left a b) (seed_le_foldl_max t (max a b))

theorem mem_le_foldl_max : ∀ (l : List ℚ) (a x : ℚ), x ∈ l → x ≤ l.foldl max a
  | b :: t, a, x, hx => by
    rcases List.mem_cons.mp hx with h | h
    · subst h
      exact le_trans (le_max_right a x) (seed_le_foldl_max t _)
    · exact mem_le_foldl_max t (max a b) x h

theorem foldl_min_le_seed : ∀ (l : List ℚ) (a : ℚ), l.foldl min a ≤ a
  | [], a => le_refl a
  | b :: t, a => le_trans (foldl_min_le_seed t (min a b)) (min_le_left a b)

theorem foldl_min_le_mem : ∀ (l : List ℚ) (a x : ℚ), x ∈ l → l.foldl min a ≤ x
  | b :: t, a, x, hx => by
    rcases List.mem_cons.mp hx with h | h
    · subst h
      exact le_trans (foldl_min_le_seed t _) (min_le_right a x)
    · exact foldl_min_le_mem t (min a b) x h


theorem le_pyMaxD {l : List ℚ} {x : ℚ} (hx : x ∈ l) (d : ℚ) :
    x ≤ pyMaxD d l := by
  cases l with
  | nil => cases hx
  | cons b t =>
    unfold pyMaxD
    rcases List.mem_cons.mp hx with h | h
    · subst h
      exact seed_le_foldl_max t x
    · exact mem_le_foldl_max t b x h

theorem le_pyMaxO {l : List ℚ} {m x : ℚ} (hm : pyMaxO l = some m)
    (hx : x ∈ l) : x ≤ m := by
  cases l with
  | nil => cases hx
  | cons b t =>
    unfold pyMaxO at hm
    injection hm with hm
    subst hm
    rcases List.mem_cons.mp hx with h | h
    · subst h
      exact seed_le_foldl_max t x
    · exact mem_le_foldl_max t b x h

theorem pyMinO_le {l : List ℚ} {m x : ℚ} (hm : pyMinO l = some m)
    (hx : x ∈ l) : m ≤ x := by
  cases l with
  | nil => cases hx
  | cons b t =>
    unfold pyMinO at hm
    injection hm with hm
    subst hm
    rcases List.mem_cons.mp hx with h | h
    · subst h
      exact foldl_min_le_seed t _
    · exact foldl_min_le_mem t _ x h

theorem sortAsc_mem {l : List ℚ} {x : ℚ} (hx : x ∈ sortAsc l) : x ∈ l :=
  (List.mergeSort_perm l _).mem_iff.mp hx

theorem getD_sortAsc_nonneg {l : List ℚ} (h : ∀ x ∈ l, 0 ≤ x) (i : ℕ) :
    0 ≤ (sortAsc l).getD i 0 := by
  by_cases hi : i < (sortAsc l).length
  · rw [List.getD_eq_getElem _ _ hi]
    exact h _ (sortAsc_mem (List.getElem_mem hi))
  · rw [List.getD_eq_default _ _ (le_of_not_lt hi)]

theorem pct25_nonneg {l : List ℚ} (h : ∀ x ∈ l, 0 ≤ x) : 0 ≤ pct25 l := by
  unfold pct25
  split <;> exact getD_sortAsc_nonneg h _

theorem pct50_nonneg {l : List ℚ} (h : ∀ x ∈ l, 0 ≤ x) : 0 ≤ pct50 l := by
  unfold pct50
  split <;> exact getD_sortAsc_nonneg h _

theorem weighted3_mem {bw qw cw b q c : ℚ} (hbw : 0 ≤ bw) (hqw : 0 ≤ qw)
    (hcw : 0 ≤ cw) (hsum : bw + qw + cw = 1) (hb0 : 0 ≤ b) (hb1 : b ≤ 1)
    (hq0 : 0 ≤ q) (hq1 : q ≤ 1) (hc0 : 0 ≤ c) (hc1 : c ≤ 1) :
    0 ≤ b * bw + q * qw + c * cw ∧ b * bw + q * qw + c * cw ≤ 1 := by
  have h1 : b * bw ≤ bw := by nlinarith
  have h2 : q * qw ≤ qw := by nlinarith
  have h3 : c * cw ≤ cw := by nlinarith
  constructor
  · have := mul_nonneg hb0 hbw
    have := mul_nonneg hq0 hqw
    have := mul_nonneg hc0 hcw
    linarith
  · linarith

/-! ## Amplifier bounds -/

theorem min_one_mem {x : ℚ} (hx : 0 ≤ x) : 0 ≤ min 1 x ∧ min 1 x ≤ 1 :=
  ⟨le_min (by norm_num) hx, min_le_left 1 x⟩

theorem boost_mem {base boost : ℚ} (h0 : 0 ≤ base) (hb : 0 ≤ boost) :
    0 ≤ min 1 (base + boost) ∧ min 1 (base + boost) ≤ 1 :=
  ⟨le_min (by norm_num) (by linarith), min_le_left 1 (base + boost)⟩

theorem penalty_mem {bn pen : ℚ} (h1 : bn ≤ 1) (hpen : 0 ≤ pen) :
    0 ≤ max 0 (bn - pen) ∧ max 0 (bn - pen) ≤ 1 :=
  ⟨le_max_left 0 (bn - pen), max_le (by norm_num) (by linarith)⟩

theorem budgetBoost7_mem (P : PowModel) {bw base : ℚ} (hbw : 0.7 ≤ bw)
    (h0 : 0 ≤ base) (h1 : base ≤ 1) :
    0 ≤ budgetBoost7 P bw base ∧ budgetBoost7 P bw base ≤ 1 := by
  unfold budgetBoost7
  split
  · refine min_one_mem (mul_nonneg (P.nonneg _ _ h0) ?_)
    have hq : 0 ≤ (bw - 0.7) / 0.3 := div_nonneg (by linarith) (by norm_num)
    linarith
  · exact ⟨h0, h1⟩

theorem budgetBoost6_mem (P : PowModel) {base : ℚ} (h0 : 0 ≤ base)
    (h1 : base ≤ 1) : 0 ≤ budgetBoost6 P base ∧ budgetBoost6 P base ≤ 1 := by
  unfold budgetBoost6
  split
  · exact min_one_mem (P.nonneg _ _ h0)
  · exact ⟨h0, h1⟩

theorem budgetPenalty7_mem (P : PowModel) (price : Option ℚ)
    (prices : List ℚ) {bn : ℚ} (h0 : 0 ≤ bn) (h1 : bn ≤ 1) :
    0 ≤ budgetPenalty7 P price prices bn ∧
      budgetPenalty7 P price prices bn ≤ 1 := by
  unfold budgetPenalty7
  split
  · rename_i pr mx heq
    split
    · rename_i h
      have hrr : 0 ≤ (pr - pct75 prices) / (mx - pct75 prices + 0.01) :=
        div_nonneg (by linarith [h.1]) (by linarith [h.2])
      exact penalty_mem h1
        (le_min (by norm_num) (mul_nonneg (by norm_num) (P.nonneg _ _ hrr)))
    · exact ⟨h0, h1⟩
  · exact ⟨h0, h1⟩

theorem budgetPenalty6_mem (P : PowModel) (price : Option ℚ)
    (prices : List ℚ) {bn : ℚ} (h0 : 0 ≤ bn) (h1 : bn ≤ 1) :
    0 ≤ budgetPenalty6 P price prices bn ∧
      budgetPenalty6 P price prices bn ≤ 1 := by
  unfold budgetPenalty6
  split
  · rename_i pr mx heq
    split
    · rename_i h
      have hrr : 0 ≤ (pr - pct50 prices) / (mx - pct50 prices + 0.01) :=
        div_nonneg (by linarith [h.1]) (by linarith [h.2])
      exact penalty_mem h1
        (le_min (by norm_num) (mul_nonneg (by norm_num) (P.nonneg _ _ hrr)))
    · exact ⟨h0, h1⟩
  · exact ⟨h0, h1⟩

theorem amplifyBudget_mem (P : PowModel) (bw : ℚ) (price : Option ℚ)
    (prices : List ℚ) {base : ℚ} (h0 : 0 ≤ base) (h1 : base ≤ 1) :
    0 ≤ amplifyBudget P bw price prices base ∧
      amplifyBudget P bw price prices base ≤ 1 := by
  unfold amplifyBudget
  split
  · rename_i hbw
    have hb := budgetBoost7_mem P hbw h0 h1
    exact budgetPenalty7_mem P price prices hb.1 hb.2
  · split
    · have hb := budgetBoost6_mem P h0 h1
      exact budgetPenalty6_mem P price prices hb.1 hb.2
    · exact ⟨h0, h1⟩

theorem qualityReshape7_mem (P : PowModel) (rating : ℚ) {base : ℚ}
    (h0 : 0 ≤ base) (h1 : base ≤ 1) :
    0 ≤ qualityReshape7 P rating base ∧ qualityReshape7 P rating base ≤ 1 := by
  unfold qualityReshape7
  split
  · rename_i h
    have hrr : 0 ≤ (rating - 4.5) / 0.5 := div_nonneg (by linarith) (by norm_num)
    exact boost_mem h0
      (le_min (by norm_num) (mul_nonneg (by norm_num) (P.nonneg _ _ hrr)))
  · split
    · rename_i _ h
      have hrr : 0 ≤ (4 - rating) / 4 := div_nonneg (by linarith) (by norm_num)
      exact penalty_mem h1
        (le_min (by norm_num) (mul_nonneg (by norm_num) (P.nonneg _ _ hrr)))
    · exact ⟨h0, h1⟩

theorem qualityReshape6_mem (rating : ℚ) {base : ℚ} (h0 : 0 ≤ base)
    (h1 : base ≤ 1) :
    0 ≤ qualityReshape6 rating base ∧ qualityReshape6 rating base ≤ 1 := by
  unfold qualityReshape6
  split
  · rename_i h
    have hrr : 0 ≤ (rating - 4.5) / 0.5 := div_nonneg (by linarith) (by norm_num)
    exact boost_mem h0 (le_min (by norm_num) (by linarith))
  · split
    · rename_i _ h
      have hrr : 0 ≤ (4 - rating) / 4 := div_nonneg (by linarith) (by norm_num)
      exact penalty_mem h1 (le_min (by norm_num) (by linarith))
    · exact ⟨h0, h1⟩

theorem amplifyQuality_mem (P : PowModel) (qw rating : ℚ) {base : ℚ}
    (h0 : 0 ≤ base) (h1 : base ≤ 1) :
    0 ≤ amplifyQuality P qw rating base ∧
      amplifyQuality P qw rating base ≤ 1 := by
  unfold amplifyQuality
  split
  · exact qualityReshape7_mem P rating h0 h1
  · split
    · exact qualityReshape6_mem rating h0 h1
    · exact ⟨h0, h1⟩

theorem convReshape7_mem (P : PowModel) {cw : ℚ} (dur : ℚ)
    {durations : List ℚ} (hcw : 0.7 ≤ cw) (hd : ∀ x ∈ durations, 0 ≤ x)
    {base : ℚ} (h0 : 0 ≤ base) (h1 : base ≤ 1) :
    0 ≤ convReshape7 P cw dur durations base ∧
      convReshape7 P cw dur durations base ≤ 1 := by
  unfold convReshape7
  split
  · rename_i mx heq
    split
    · rename_i h
      have hp25 : 0 ≤ pct25 durations := pct25_nonneg hd
      have hrr : 0 ≤ (pct25 durations - dur) / (pct25 durations + 0.1) :=
        div_nonneg (by linarith) (by linarith)
      have hbf : 0 ≤ 1 + 0.6 * ((cw - 0.7) / 0.3) := by
        have hq : 0 ≤ (cw - 0.7) / 0.3 := div_nonneg (by linarith) (by norm_num)
        linarith
      exact boost_mem h0 (le_min (by norm_num)
        (mul_nonneg (mul_nonneg (by norm_num) (P.nonneg _ _ hrr)) hbf))
    · split
      · rename_i _ h
        have hrr : 0 ≤ (dur - pct75 durations) / (mx - pct75 durations + 0.1) :=
          div_nonneg (by linarith [h.1]) (by linarith [h.2])
        exact penalty_mem h1
          (le_min (by norm_num) (mul_nonneg (by norm_num) (P.nonneg _ _ hrr)))
      · exact ⟨h0, h1⟩
  · exact ⟨h0, h1⟩

theorem convReshape6_mem (dur : ℚ) {durations : List ℚ}
    (hd : ∀ x ∈ durations, 0 ≤ x) {base : ℚ} (h0 : 0 ≤ base)
    (h1 : base ≤ 1) :
    0 ≤ convReshape6 dur durations base ∧
      convReshape6 dur durations base ≤ 1 := by
  unfold convReshape6
  split
  · rename_i mx heq
    split
    · rename_i h
      have hp50 : 0 ≤ pct50 durations := pct50_nonneg hd
      have hrr : 0 ≤ (pct50 durations - dur) / (pct50 durations + 0.1) :=
        div_nonneg (by linarith) (by linarith)
      exact boost_mem h0 (le_min (by norm_num) (by linarith))
    · split
      · rename_i _ h
        have hrr : 0 ≤ (dur - pct75 durations) / (mx - pct75 durations + 0.1) :=
          div_nonneg (by linarith [h.1]) (by linarith [h.2])
        exact penalty_mem h1 (le_min (by norm_num) (by linarith))
      · exact ⟨h0, h1⟩
  · exact ⟨h0, h1⟩

theorem amplifyConvenience_mem (P : PowModel) (cw dur : ℚ)
    {durations : List ℚ} (hd : ∀ x ∈ durations, 0 ≤ x) {base : ℚ}
    (h0 : 0 ≤ base) (h1 : base ≤ 1) :
    0 ≤ amplifyConvenience P cw dur durations base ∧
      amplifyConvenience P cw dur durations base ≤ 1 := by
  unfold amplifyConvenience
  split
  · rename_i hcw
    exact convReshape7_mem P dur hcw hd h0 h1
  · split
    · exact convReshape6_mem dur hd h0 h1
    · exact ⟨h0, h1⟩

/-! ## Activity score bounds and the shape of the ranking body -/

theorem actBaseBudget_mem (prices : List ℚ) (price : Option ℚ) :
    0 ≤ actBaseBudget prices price ∧ actBaseBudget prices price ≤ 1 := by
  unfold actBaseBudget
  split
  · split
    · exact inverse_normalize_mem _ _ _
    · exact half_mem01
  · exact half_mem01

theorem actBaseQuality_mem (rating : ℚ) :
    0 ≤ actBaseQuality rating ∧ actBaseQuality rating ≤ 1 :=
  forward_normalize_mem _ _ _

theorem actBaseConvenience_mem (durations : List ℚ) (dur : ℚ) :
    0 ≤ actBaseConvenience durations dur ∧
      actBaseConvenience durations dur ≤ 1 := by
  unfold actBaseConvenience
  split
  · split
    · exact inverse_normalize_mem _ _ _
    · exact half_mem01
  · exact half_mem01

theorem actNormBudget_mem (P : PowModel) (hasPrefs : Bool) (w : W3)
    (prices : List ℚ) (a : RawAct) :
    0 ≤ actNormBudget P hasPrefs w prices a ∧
      actNormBudget P hasPrefs w prices a ≤ 1 := by
  unfold actNormBudget
  have hb := actBaseBudget_mem prices (rankActPrice a)
  split
  · exact amplifyBudget_mem P w.bw _ prices hb.1 hb.2
  · exact hb

theorem actNormQuality_mem (P : PowModel) (hasPrefs : Bool) (w : W3)
    (a : RawAct) :
    0 ≤ actNormQuality P hasPrefs w a ∧ actNormQuality P hasPrefs w a ≤ 1 := by
  unfold actNormQuality
  have hb := actBaseQuality_mem ((rankActRating a).getD 3.5)
  split
  · exact amplifyQuality_mem P w.qw _ hb.1 hb.2
  · exact hb

theorem actDurationPool_nonneg (acts : List RawAct) :
    ∀ x ∈ actDurationPool acts, 0 ≤ x := by
  intro x hx
  unfold actDurationPool at hx
  exact of_decide_eq_true (List.mem_filter.mp hx).2

theorem actPricePool_nonneg (acts : List RawAct) :
    ∀ x ∈ actPricePool acts, 0 ≤ x := by
  intro x hx
  unfold actPricePool at hx
  exact of_decide_eq_true (List.mem_filter.mp hx).2

theorem actNormConvenience_mem (P : PowModel) (hasPrefs : Bool) (w : W3)
    {durations : List ℚ} (hd : ∀ x ∈ durations, 0 ≤ x) (a : RawAct) :
    0 ≤ actNormConvenience P hasPrefs w durations a ∧
      actNormConvenience P hasPrefs w durations a ≤ 1 := by
  unfold actNormConvenience
  have hb := actBaseConvenience_mem durations ((rankActHours a).getD 2)
  split
  · exact amplifyConvenience_mem P w.cw _ hd hb.1 hb.2
  · exact hb

theorem pyRound_scale100_mem {x : ℚ} (h0 : 0 ≤ x) (h1 : x ≤ 1) (n : ℕ) :
    0 ≤ pyRound n (x * 100) ∧ pyRound n (x * 100) ≤ 100 := by
  constructor
  · exact pyRound_nonneg (by nlinarith)
  · have h : x * 100 ≤ ((100 : ℤ) : ℚ) := by push_cast; nlinarith
    simpa using pyRound_le_intCast h

/-- The monadic bind of `Except Unit` succeeds exactly through a successful
first component. -/
theorem exceptBind_ok {α β : Type} {x : Except Unit α} {f : α → Except Unit β}
    {b : β} (h : (x >>= f) = .ok b) : ∃ a, x = .ok a ∧ f a = .ok b := by
  cases x with
  | error e => simp [Bind.bind, Except.bind] at h
  | ok a => exact ⟨a, rfl, by simpa [Bind.bind, Except.bind] using h⟩

theorem sortDescBy_perm {α : Type} (k : α → ℚ) (l : List α) :
    (sortDescBy k l).Perm l := List.mergeSort_perm l _

theorem filter_not_longOf_eq (l : List ScoredAct) :
    (l.filter fun x => !(fun a => !longOf a) x) = l.filter fun a => longOf a := by
  apply List.filter_congr
  intro a _
  simp

theorem sortStage_perm (l : List ScoredAct) : (sortStage l).Perm l := by
  unfold sortStage
  refine List.Perm.trans
    (List.Perm.append (sortDescBy_perm scoreOf _) (sortDescBy_perm scoreOf _)) ?_
  rw [← filter_not_longOf_eq l]
  exact List.filter_append_perm _ l

/-- A successful run of the ranking body returns exactly the sorted map of
fully annotated records, for some raw-preference pair and weight vector. -/
theorem rankActBody_ok_shape {P : PowModel} {acts : List RawAct}
    {prefs : Option PyMap3} {days : Option ℚ} {l : List ScoredAct}
    (h : rankActBody P acts prefs days = .ok l) :
    ∃ rawBQ w, l = sortStage (acts.map fun a =>
      scoredActMk P rawBQ w days (actPricePool acts) (actDurationPool acts) a) := by
  unfold rankActBody at h
  obtain ⟨wr, _, hpure⟩ := exceptBind_ok h
  refine ⟨wr.1, wr.2, ?_⟩
  simpa [Pure.pure, Except.pure] using hpure.symm

/-- The range check on the stored axis display scores of one activity
record: absent keys pass, present values must lie within 0 and 100. -/
def axisScoresIn0100 (a : ScoredAct) : Bool :=
  (match a.budget_score with
   | some s => decide (0 ≤ s ∧ s ≤ 100)
   | none => true) &&
  (match a.quality_score with
   | some s => decide (0 ≤ s ∧ s ≤ 100)
   | none => true) &&
  (match a.convenience_score with
   | some s => decide (0 ≤ s ∧ s ≤ 100)
   | none => true)

theorem axisScoresIn0100_mk (P : PowModel) (rawBQ : Option (ℚ × ℚ)) (w : W3)
    (days : Option ℚ) (prices : List ℚ) {durations : List ℚ}
    (hd : ∀ x ∈ durations, 0 ≤ x) (a : RawAct) :
    axisScoresIn0100 (scoredActMk P rawBQ w days prices durations a) = true := by
  have hB := actNormBudget_mem P rawBQ.isSome w prices a
  have hQ := actNormQuality_mem P rawBQ.isSome w a
  have hC := actNormConvenience_mem P rawBQ.isSome w hd a
  have h1 := pyRound_scale100_mem hB.1 hB.2 2
  have h2 := pyRound_scale100_mem hQ.1 hQ.2 2
  have h3 := pyRound_scale100_mem hC.1 hC.2 2
  simp only [axisScoresIn0100, scoredActMk, scoreAct]
  rw [decide_eq_true ⟨h1.1, h1.2⟩, decide_eq_true ⟨h2.1, h2.2⟩,
    decide_eq_true ⟨h3.1, h3.2⟩]
  rfl

theorem axisScoresIn0100_plain (a : RawAct) :
    axisScoresIn0100 (plainAct a) = true := rfl

/-- C7: the preference-amplification stage (the strong/extreme boost and
penalty reshaping applied when a weight is at least 0.6 or 0.7) never
pushes a score out of the valid interval: for every candidate list, every
preference dict and every trip duration, each budget, quality and
convenience score stored by the activities ranking entry point lies
within [0, 100] (the 0–100 display scale of the 0–1 normalized values). -/
theorem C7_amplifier_scores_in_range (P : PowModel) (acts : List RawAct)
    (prefs : Option PyMap3) (days : Option ℚ) :
    (apply_preference_filters_to_activities P acts prefs days).all
      axisScoresIn0100 = true := by
  unfold apply_preference_filters_to_activities
  split
  · rw [List.all_eq_true]
    intro a ha
    obtain ⟨a0, _, rfl⟩ := List.mem_map.mp ha
    exact axisScoresIn0100_plain a0
  · split
    · rename_i l hok
      obtain ⟨rawBQ, w, rfl⟩ := rankActBody_ok_shape hok
      rw [List.all_eq_true]
      intro x hx
      have hx2 := (sortStage_perm _).mem_iff.mp hx
      obtain ⟨a0, _, rfl⟩ := List.mem_map.mp hx2
      exact axisScoresIn0100_mk P rawBQ w days _ (actDurationPool_nonneg acts) a0
    · rw [List.all_eq_true]
      intro a ha
      obtain ⟨a0, _, rfl⟩ := List.mem_map.mp ha
      exact axisScoresIn0100_plain a0

/-! ## Weight-normalization properties (scoring.py) -/

theorem normalize_weights_props {w : Option PyMap3} {b q c : ℚ}
    (h : normalize_weights w = .ok (b, q, c)) :
    0 ≤ b ∧ 0 ≤ q ∧ 0 ≤ c ∧ b + q + c = 1 := by
  cases w with
  | none =>
    simp only [normalize_weights, DEFAULT_WEIGHTS] at h
    injection h with h
    simp only [Prod.mk.injEq] at h
    obtain ⟨h1, h2, h3⟩ := h
    subst h1
    subst h2
    subst h3
    norm_num
  | some wm =>
    simp only [normalize_weights] at h
    obtain ⟨b0, hb0, h⟩ := exceptBind_ok h
    obtain ⟨q0, hq0, h⟩ := exceptBind_ok h
    obtain ⟨c0, hc0, h⟩ := exceptBind_ok h
    split at h
    · have h2 : ((0.33 : ℚ), (0.33 : ℚ), (0.34 : ℚ)) = (b, q, c) := by
        simpa [Pure.pure, Except.pure, DEFAULT_WEIGHTS] using h
      simp only [Prod.mk.injEq] at h2
      obtain ⟨h1, h2x, h3⟩ := h2
      subst h1; subst h2x; subst h3
      norm_num
    · rename_i ht
      push_neg at ht
      have h2 : (max b0 0 / (max b0 0 + max q0 0 + max c0 0),
          max q0 0 / (max b0 0 + max q0 0 + max c0 0),
          max c0 0 / (max b0 0 + max q0 0 + max c0 0)) = (b, q, c) := by
        simpa [Pure.pure, Except.pure] using h
      simp only [Prod.mk.injEq] at h2
      obtain ⟨h1, h2x, h3⟩ := h2
      subst h1; subst h2x; subst h3
      have hne : max b0 0 + max q0 0 + max c0 0 ≠ 0 := ne_of_gt ht
      refine ⟨div_nonneg (le_max_right _ _) (le_of_lt ht),
        div_nonneg (le_max_right _ _) (le_of_lt ht),
        div_nonneg (le_max_right _ _) (le_of_lt ht), ?_⟩
      field_simp

theorem optWeights_ok_sum {p : PyMap3} {v : W3} (h : optWeights p = .ok v) :
    v.bw + v.qw + v.cw = 1 := by
  unfold optWeights at h
  obtain ⟨b, hb, h⟩ := exceptBind_ok h
  obtain ⟨q, hq, h⟩ := exceptBind_ok h
  obtain ⟨c, hc, h⟩ := exceptBind_ok h
  split at h
  · rename_i ht
    have h2 : (⟨b / (b + q + c), q / (b + q + c), c / (b + q + c)⟩ : W3) = v := by
      simpa [Pure.pure, Except.pure] using h
    subst h2
    have hne : b + q + c ≠ 0 := ne_of_gt ht
    dsimp only
    field_simp
  · have h2 : (⟨1/3, 1/3, 1/3⟩ : W3) = v := by
      simpa [Pure.pure, Except.pure] using h
    subst h2
    norm_num

theorem clamp_score_ok_mem {v : PyVal} {s : ℚ} (h : clamp_score v = .ok s) :
    0 ≤ s ∧ s ≤ 100 := by
  unfold clamp_score at h
  obtain ⟨x, hx, hp⟩ := exceptBind_ok h
  have hs : max 0 (min x 100) = s := by simpa [Pure.pure, Except.pure] using hp
  subst hs
  exact ⟨le_max_left 0 _, max_le (by norm_num) (min_le_right x 100)⟩

/-- C2 fails on the code at two points shown here: the standalone
`normalize_weights` raises on a non-numeric string entry instead of
clamping it to 0, and the weight normalization inside
`generateOptimalItinerary` does not clamp negative entries, so a
normalized component can be negative (here `-1`). -/
theorem C2_weight_normalization_cex :
    normalize_weights (some ⟨some .strBad, none, none⟩) = .error () ∧
    optWeights ⟨some (.num (-1)), some (.num 2), some (.num 0)⟩ =
      .ok ⟨-1, 2, 0⟩ ∧
    ¬ (0 ≤ (-1 : ℚ)) :=
  ⟨rfl,
    by norm_num [optWeights, asArith, Bind.bind, Except.bind, Pure.pure,
      Except.pure],
    by norm_num⟩

/-- C2 (amended): whenever the standalone `normalize_weights` returns — it
raises on non-numeric entries instead of clamping them — the result has
three non-negative components summing to exactly 1 (negative numeric
entries are clamped, and a non-positive clamped sum yields the default
distribution).  The normalization inside `generateOptimalItinerary` also
returns components summing to exactly 1 whenever it returns (equal thirds
when the raw total is not positive), but it does not clamp negatives, so
its components can be negative. -/
theorem C2_weight_normalization_amended :
    (∀ (w : Option PyMap3) (b q c : ℚ), normalize_weights w = .ok (b, q, c) →
      0 ≤ b ∧ 0 ≤ q ∧ 0 ≤ c ∧ b + q + c = 1) ∧
    (∀ (p : PyMap3) (v : W3), optWeights p = .ok v →
      v.bw + v.qw + v.cw = 1) :=
  ⟨fun _ _ _ _ h => normalize_weights_props h, fun _ _ h => optWeights_ok_sum h⟩

/-- Witness: the amended C2 statement applied at concrete numeric inputs. -/
theorem C2_weight_normalization_amended_witness :
    (0 ≤ (1/2 : ℚ) ∧ 0 ≤ (1/4 : ℚ) ∧ 0 ≤ (1/4 : ℚ) ∧
      (1/2 : ℚ) + 1/4 + 1/4 = 1) ∧
    ((⟨2/5, 2/5, 1/5⟩ : W3).bw + (⟨2/5, 2/5, 1/5⟩ : W3).qw +
      (⟨2/5, 2/5, 1/5⟩ : W3).cw = 1) :=
  ⟨C2_weight_normalization_amended.1
      (some ⟨some (.num 2), some (.num 1), some (.num 1)⟩) (1/2) (1/4) (1/4)
      (by norm_num [normalize_weights, pyFloat, Bind.bind, Except.bind,
        Pure.pure, Except.pure]),
    C2_weight_normalization_amended.2
      ⟨some (.num 2), some (.num 2), some (.num 1)⟩ ⟨2/5, 2/5, 1/5⟩
      (by norm_num [optWeights, asArith, Bind.bind, Except.bind, Pure.pure,
        Except.pure])⟩

/-- C9: `calculate_total_score` clamps each axis score into the 0–100 range
(missing axes read as 0) before applying the normalized weights, so
whenever it returns, the result lies in the 0–100 range and is an exact
two-decimal value; a scores dict with all three axes missing yields 0. -/
theorem C9_calculate_total_score_props :
    (∀ (scores : PyMap3) (weights : Option PyMap3) (r : ℚ),
      calculate_total_score scores weights = .ok r →
      0 ≤ r ∧ r ≤ 100 ∧ ∃ n : ℤ, r = (n : ℚ) / 100) ∧
    (∀ (weights : Option PyMap3) (v : ℚ × ℚ × ℚ),
      normalize_weights weights = .ok v →
      calculate_total_score ⟨none, none, none⟩ weights = .ok 0) := by
  constructor
  · intro scores weights r h
    unfold calculate_total_score at h
    obtain ⟨ws, hws, h⟩ := exceptBind_ok h
    obtain ⟨bs, hbs, h⟩ := exceptBind_ok h
    obtain ⟨qs, hqs, h⟩ := exceptBind_ok h
    obtain ⟨cs, hcs, h⟩ := exceptBind_ok h
    have hr : pyRound 2 (bs * ws.1 + qs * ws.2.1 + cs * ws.2.2) = r := by
      simpa [Pure.pure, Except.pure] using h
    obtain ⟨hw1, hw2, hw3, hw4⟩ := normalize_weights_props (w := weights)
      (b := ws.1) (q := ws.2.1) (c := ws.2.2) hws
    have hb := clamp_score_ok_mem hbs
    have hq := clamp_score_ok_mem hqs
    have hc := clamp_score_ok_mem hcs
    have hlo : 0 ≤ bs * ws.1 + qs * ws.2.1 + cs * ws.2.2 := by
      have := mul_nonneg hb.1 hw1
      have := mul_nonneg hq.1 hw2
      have := mul_nonneg hc.1 hw3
      linarith
    have hhi : bs * ws.1 + qs * ws.2.1 + cs * ws.2.2 ≤ 100 := by
      have h1 : bs * ws.1 ≤ 100 * ws.1 := mul_le_mul_of_nonneg_right hb.2 hw1
      have h2 : qs * ws.2.1 ≤ 100 * ws.2.1 := mul_le_mul_of_nonneg_right hq.2 hw2
      have h3 : cs * ws.2.2 ≤ 100 * ws.2.2 := mul_le_mul_of_nonneg_right hc.2 hw3
      nlinarith
    refine ⟨?_, ?_, ⟨round ((bs * ws.1 + qs * ws.2.1 + cs * ws.2.2) * 10 ^ 2), ?_⟩⟩
    · rw [← hr]
      exact pyRound_nonneg hlo
    · rw [← hr]
      have h100 : bs * ws.1 + qs * ws.2.1 + cs * ws.2.2 ≤ ((100 : ℤ) : ℚ) := by
        push_cast
        exact hhi
      simpa using pyRound_le_intCast h100
    · rw [← hr]
      unfold pyRound
      norm_num
  · intro weights v h
    unfold calculate_total_score
    rw [h]
    show (Except.ok v >>= fun w => _) = Except.ok 0
    simp only [Bind.bind, Except.bind, Option.getD, clamp_score, pyFloat,
      Pure.pure, Except.pure]
    norm_num [pyRound]

/-- Witness: C9 applied at a concrete out-of-range scores dict (200 is
clamped to 100, −30 to 0; default weights give a total of 33). -/
theorem C9_calculate_total_score_witness :
    0 ≤ (33 : ℚ) ∧ (33 : ℚ) ≤ 100 ∧ ∃ n : ℤ, (33 : ℚ) = (n : ℚ) / 100 :=
  C9_calculate_total_score_props.1 ⟨some (.num 200), some (.num (-30)), none⟩
    none 33
    (by norm_num [calculate_total_score, normalize_weights, DEFAULT_WEIGHTS,
      clamp_score, pyFloat, pyRound, Bind.bind, Except.bind, Pure.pure,
      Except.pure])

/-! ## The combination search invariant (C1) -/

theorem searchStep_cases (budget : ℚ) (best : Option Combo)
    (t : NormFlight × NormHotel × NormAct) :
    searchStep budget best t = best ∨
      (searchStep budget best t = some (mkCombo t) ∧
        comboSkipped budget t.1 t.2.1 t.2.2 = false) := by
  unfold searchStep
  split
  · exact Or.inl rfl
  · rename_i hskip
    split
    · exact Or.inr ⟨rfl, by simpa using hskip⟩
    · exact Or.inl rfl

theorem foldl_searchStep_invariant (budget : ℚ) (Q : Combo → Prop)
    (l : List (NormFlight × NormHotel × NormAct)) :
    ∀ (acc : Option Combo),
      (∀ t ∈ l, comboSkipped budget t.1 t.2.1 t.2.2 = false → Q (mkCombo t)) →
      (∀ c, acc = some c → Q c) →
      ∀ c, l.foldl (searchStep budget) acc = some c → Q c := by
  induction l with
  | nil =>
    intro acc _ hacc c hc
    exact hacc c hc
  | cons t ts ih =>
    intro acc hl hacc c hc
    simp only [List.foldl_cons] at hc
    refine ih (searchStep budget acc t)
      (fun t2 ht2 => hl t2 (List.mem_cons_of_mem _ ht2)) ?_ c hc
    intro c2 hc2
    rcases searchStep_cases budget acc t with he | ⟨he, hpass⟩
    · exact hacc c2 (he ▸ hc2)
    · rw [he] at hc2
      injection hc2 with hc2
      exact hc2 ▸ hl t (List.mem_cons_self _ _) hpass

theorem comboSkipped_false_iff (budget : ℚ) (f : NormFlight) (h : NormHotel)
    (a : NormAct) :
    comboSkipped budget f h a = false ↔
      (h.isDummy = true ∨ a.isDummy = true ∨
        f.price + h.price + a.price ≤ budget) := by
  unfold comboSkipped
  constructor
  · intro hp
    rcases Bool.and_eq_false_iff.mp hp with h1 | h1
    · rcases Bool.and_eq_false_iff.mp h1 with h2 | h2
      · right; right
        exact not_lt.mp (of_decide_eq_false h2)
      · left
        simpa using h2
    · right; left
      simpa using h1
  · intro hp
    rcases hp with h1 | h1 | h1
    · simp [h1]
    · simp [h1]
    · simp [not_lt.mpr h1]

/-- A successful optimize run comes from the fold over the Cartesian
product of the (dummy-substituted) normalized lists. -/
theorem generateOptimalItinerary_success_shape
    {flights : List RawFlight} {hotels : List RawHotel} {acts : List RawAct}
    {preferences : PyMap3} {userBudget : ℚ} {d : SuccessData}
    (h : generateOptimalItinerary flights hotels acts preferences userBudget =
      .ok (.success d)) :
    ∃ (w : W3) (nf : List NormFlight) (nh0 : List NormHotel)
      (na0 : List NormAct) (c : Combo),
      (triples nf (if nh0.isEmpty then [dummyHotel] else nh0)
          (if na0.isEmpty then [dummyAct] else na0)).foldl
        (searchStep userBudget) none = some c ∧
      d = ⟨c.flight, c.hotel, c.activity, c.total_price, c.total_score,
        c.hotel.isDummy, c.activity.isDummy⟩ := by
  unfold generateOptimalItinerary at h
  obtain ⟨w, hw, h⟩ := exceptBind_ok h
  obtain ⟨nf, hnf, h⟩ := exceptBind_ok h
  obtain ⟨nh0, hnh, h⟩ := exceptBind_ok h
  obtain ⟨na0, hna, h⟩ := exceptBind_ok h
  split at h
  · simp [Pure.pure, Except.pure] at h
  · split at h
    · simp [Pure.pure, Except.pure] at h
    · rename_i c hc
      refine ⟨w, nf, nh0, na0, c, hc, ?_⟩
      simp only [Pure.pure, Except.pure, Except.ok.injEq] at h
      injection h with h
      exact h.symm

/-- C1 fails on the code: the budget filter skips an over-budget triple
only when BOTH the hotel and the activity are non-placeholders, so a
single placeholder (here the dummy hotel, substituted because the hotel
list is empty) admits a triple whose real flight (500) and real activity
(1000) jointly cost 1500, far above the budget of 100; the run still
returns a successful result with that total price. -/
theorem C1_budget_bypass_cex :
    generateOptimalItinerary
      [⟨some (.scal (.num 500)), none, none, none, 1⟩] []
      [⟨some (.scal (.num 1000)), none, none, none, 1⟩]
      ⟨none, none, none⟩ 100 =
    .ok (.success ⟨⟨1, 500, 0, 4, 0, 4/5, 1/2, 217/500⟩, dummyHotel,
      ⟨1, false, 1000, 4, 2, 0, 4/5, 0, 33/125⟩, 1500, 307/750, true, false⟩) ∧
    (100 : ℚ) < 1500 ∧ (100 : ℚ) < 500 + 1000 :=
  ⟨by norm_num [generateOptimalItinerary, optWeights, asArith,
      normalizeFlights, normalizeHotels, normalizeActs, mapME, flightPriceE,
      flightDurationQ, flightRatingE, actPriceE, actRatingE, actDurationQ,
      dictGet2, truthy, pyFloat, isoHours, pyMaxD, dummyHotel, dummyAct,
      triples, searchStep, mkCombo, comboSkipped, bestScoreOf, Bind.bind,
      Except.bind, Pure.pure, Except.pure, List.foldl, List.flatMap],
    by norm_num, by norm_num⟩

/-- C1 (amended): whenever `generateOptimalItinerary` returns a successful
result, either the winning hotel is the placeholder, or the winning
activity is the placeholder, or the returned total price is at most the
budget — a single placeholder in the triple suffices to bypass the budget
filter entirely.  Moreover the filter is exactly this disjunction, with an
inclusive comparison: a triple whose total price equals the budget is
admitted. -/
theorem C1_budget_amended :
    (∀ (flights : List RawFlight) (hotels : List RawHotel)
      (acts : List RawAct) (preferences : PyMap3) (userBudget : ℚ)
      (d : SuccessData),
      generateOptimalItinerary flights hotels acts preferences userBudget =
        .ok (.success d) →
      d.hotelIsDummy = true ∨ d.activityIsDummy = true ∨
        d.total_price ≤ userBudget) ∧
    (∀ (budget : ℚ) (f : NormFlight) (h : NormHotel) (a : NormAct),
      comboSkipped budget f h a = false ↔
        (h.isDummy = true ∨ a.isDummy = true ∨
          f.price + h.price + a.price ≤ budget)) := by
  constructor
  · intro flights hotels acts preferences userBudget d h
    obtain ⟨w, nf, nh0, na0, c, hc, hd⟩ :=
      generateOptimalItinerary_success_shape h
    subst hd
    refine foldl_searchStep_invariant userBudget
      (fun c => c.hotel.isDummy = true ∨ c.activity.isDummy = true ∨
        c.total_price ≤ userBudget) _ none ?_ (by intro c2 hc2; cases hc2)
      c hc
    intro t _ hpass
    exact (comboSkipped_false_iff userBudget t.1 t.2.1 t.2.2).mp hpass
  · exact comboSkipped_false_iff

/-- Witness: the amended C1 applied to the budget-equality scenario of the
spec — flights at 300 and 500, one hotel at 100, one activity at 50,
budget exactly 450: the 300-flight triple costs exactly the budget and is
admitted (inclusive comparison), and the theorem's disjunction holds with
`total_price = 450 ≤ 450` and no placeholders involved. -/
theorem C1_budget_amended_witness :
    (⟨⟨1, 300, 0, 4, 2/5, 4/5, 1/2, 283/500⟩,
      ⟨1, false, 100, 3, 5, 0, 3/5, 0, 99/500⟩,
      ⟨1, false, 50, 4, 2, 0, 4/5, 0, 33/125⟩, 450, 257/750, false, false⟩ :
        SuccessData).hotelIsDummy = true ∨
    (⟨⟨1, 300, 0, 4, 2/5, 4/5, 1/2, 283/500⟩,
      ⟨1, false, 100, 3, 5, 0, 3/5, 0, 99/500⟩,
      ⟨1, false, 50, 4, 2, 0, 4/5, 0, 33/125⟩, 450, 257/750, false, false⟩ :
        SuccessData).activityIsDummy = true ∨
    (⟨⟨1, 300, 0, 4, 2/5, 4/5, 1/2, 283/500⟩,
      ⟨1, false, 100, 3, 5, 0, 3/5, 0, 99/500⟩,
      ⟨1, false, 50, 4, 2, 0, 4/5, 0, 33/125⟩, 450, 257/750, false, false⟩ :
        SuccessData).total_price ≤ 450 :=
  C1_budget_amended.1
    [⟨some (.scal (.num 300)), none, none, none, 1⟩,
      ⟨some (.scal (.num 500)), none, none, none, 2⟩]
    [⟨some (.scal (.num 100)), none, none, none, none, 1⟩]
    [⟨some (.scal (.num 50)), none, none, none, 1⟩]
    ⟨none, none, none⟩ 450 _
    (by norm_num [generateOptimalItinerary, optWeights, asArith,
      normalizeFlights, normalizeHotels, normalizeActs, mapME, flightPriceE,
      flightDurationQ, flightRatingE, hotelPriceE, hotelRatingE, hotelDistE,
      actPriceE, actRatingE, actDurationQ, dictGet2, truthy, priceTruthy,
      pyFloat, isoHours, pyMaxD, dummyHotel, dummyAct, triples, searchStep,
      mkCombo, comboSkipped, bestScoreOf, Bind.bind, Except.bind, Pure.pure,
      Except.pure, List.foldl, List.flatMap])

/-! ## Empty-flights behavior (C6) -/

/-- Does an `Except` computation hold a value? -/
def isOkE {α : Type} : Except Unit α → Bool
  | .ok _ => true
  | .error _ => false

theorem isOkE_true {α : Type} {x : Except Unit α} (h : isOkE x = true) :
    ∃ a, x = .ok a := by
  cases x with
  | ok a => exact ⟨a, rfl⟩
  | error e => simp [isOkE] at h

/-- All three preference values (after defaulting) are actual numbers, so
the raw weight arithmetic of `generateOptimalItinerary` cannot raise. -/
def prefsArithOk (p : PyMap3) : Bool :=
  isOkE (asArith (p.budget.getD (.num 0.33))) &&
  isOkE (asArith (p.quality.getD (.num 0.33))) &&
  isOkE (asArith (p.convenience.getD (.num 0.34)))

/-- All fallible field extractions of `normalize_hotel_metrics` succeed. -/
def hotelParseOk (h : RawHotel) : Bool :=
  isOkE (hotelPriceE h) && isOkE (hotelRatingE h) && isOkE (hotelDistE h)

/-- All fallible field extractions of `normalize_activity_metrics` succeed. -/
def actParseOk (a : RawAct) : Bool :=
  isOkE (actPriceE a) && isOkE (actRatingE a)

theorem optWeights_ok_of {p : PyMap3} (h : prefsArithOk p = true) :
    ∃ v, optWeights p = .ok v := by
  unfold prefsArithOk at h
  obtain ⟨h12, h3⟩ := Bool.and_eq_true_iff.mp h
  obtain ⟨h1, h2⟩ := Bool.and_eq_true_iff.mp h12
  obtain ⟨b, hb⟩ := isOkE_true h1
  obtain ⟨q, hq⟩ := isOkE_true h2
  obtain ⟨c, hc⟩ := isOkE_true h3
  unfold optWeights
  rw [hb, hq, hc]
  simp only [Bind.bind, Except.bind]
  split
  · exact ⟨_, rfl⟩
  · exact ⟨_, rfl⟩

theorem mapME_ok_of_forall {α β : Type} {f : α → Except Unit β} :
    ∀ {l : List α}, (∀ x ∈ l, ∃ y, f x = .ok y) → ∃ ys, mapME f l = .ok ys
  | [], _ => ⟨[], rfl⟩
  | x :: xs, h => by
    obtain ⟨y, hy⟩ := h x (List.mem_cons_self x xs)
    obtain ⟨ys, hys⟩ :=
      mapME_ok_of_forall (fun z hz => h z (List.mem_cons_of_mem _ hz))
    exact ⟨y :: ys,
      by simp [mapME, hy, hys, Bind.bind, Except.bind, Pure.pure, Except.pure]⟩

theorem normalizeHotels_ok {hs : List RawHotel}
    (h : ∀ x ∈ hs, hotelParseOk x = true) (w : W3) :
    ∃ l, normalizeHotels w hs = .ok l := by
  refine isOkE_true ?_
  unfold normalizeHotels
  split
  · rfl
  · obtain ⟨ps, hps⟩ := mapME_ok_of_forall (f := hotelPriceE) (l := hs)
      fun x hx =>
        isOkE_true (Bool.and_eq_true_iff.mp
          (Bool.and_eq_true_iff.mp (h x hx)).1).1
    obtain ⟨rs, hrs⟩ := mapME_ok_of_forall (f := hotelRatingE) (l := hs)
      fun x hx =>
        isOkE_true (Bool.and_eq_true_iff.mp
          (Bool.and_eq_true_iff.mp (h x hx)).1).2
    obtain ⟨ds, hds⟩ := mapME_ok_of_forall (f := hotelDistE) (l := hs)
      fun x hx => isOkE_true (Bool.and_eq_true_iff.mp (h x hx)).2
    simp only [hps, hrs, hds, Bind.bind, Except.bind]
    rfl

theorem normalizeActs_ok {acts : List RawAct}
    (h : ∀ x ∈ acts, actParseOk x = true) (w : W3) :
    ∃ l, normalizeActs w acts = .ok l := by
  refine isOkE_true ?_
  unfold normalizeActs
  split
  · rfl
  · obtain ⟨ps, hps⟩ := mapME_ok_of_forall (f := actPriceE) (l := acts)
      fun x hx => isOkE_true (Bool.and_eq_true_iff.mp (h x hx)).1
    obtain ⟨rs, hrs⟩ := mapME_ok_of_forall (f := actRatingE) (l := acts)
      fun x hx => isOkE_true (Bool.and_eq_true_iff.mp (h x hx)).2
    simp only [hps, hrs, Bind.bind, Except.bind]
    rfl

/-- C6 fails on the code as stated: with an empty flights list but a hotel
whose price is an unparsable string, `generateOptimalItinerary` raises
(`float` on the price is evaluated before the empty-flights check) instead
of returning the structured failure. -/
theorem C6_empty_flights_cex :
    generateOptimalItinerary [] [⟨none, some (.scal .strBad), none, none,
      none, 1⟩] [] ⟨none, none, none⟩ 100 = .error () := by
  norm_num [generateOptimalItinerary, optWeights, asArith, normalizeFlights,
    normalizeHotels, mapME, hotelPriceE, priceTruthy, truthy, pyFloat,
    dictGet2, Bind.bind, Except.bind, Pure.pure, Except.pure]

/-- C6 (amended): when the flights list is empty, `generateOptimalItinerary`
returns the structured no-flights failure (with `ok = False`, distinct from
success) for every hotels / activities / preferences / budget input whose
preference values are numeric and whose candidate price, rating and
distance fields parse; a malformed value among those raises before the
empty-flights check instead. -/
theorem C6_empty_flights_amended :
    ∀ (hotels : List RawHotel) (acts : List RawAct) (preferences : PyMap3)
      (userBudget : ℚ),
      prefsArithOk preferences = true →
      (∀ x ∈ hotels, hotelParseOk x = true) →
      (∀ x ∈ acts, actParseOk x = true) →
      generateOptimalItinerary [] hotels acts preferences userBudget =
        .ok .errNoFlights := by
  intro hotels acts preferences userBudget hp hh ha
  obtain ⟨w, hw⟩ := optWeights_ok_of hp
  obtain ⟨nh, hnh⟩ := normalizeHotels_ok hh w
  obtain ⟨na, hna⟩ := normalizeActs_ok ha w
  unfold generateOptimalItinerary
  rw [hw]
  simp [Bind.bind, Except.bind, hnh, hna, normalizeFlights, Pure.pure,
    Except.pure]

/-- Witness: the amended C6 applied to a concrete well-formed input. -/
theorem C6_empty_flights_amended_witness :
    generateOptimalItinerary []
      [⟨none, some (.scal (.num 100)), none, none, none, 1⟩] []
      ⟨none, none, none⟩ 100 = .ok .errNoFlights :=
  C6_empty_flights_amended
    [⟨none, some (.scal (.num 100)), none, none, none, 1⟩] []
    ⟨none, none, none⟩ 100 (by decide) (by decide) (by decide)

/-! ## Category ranker ordering and stability (C5) -/

/-- Once a long-tour record appears, every following record is long-tour:
no long-tour record precedes a regular one. -/
def noLongBeforeRegular (l : List ScoredAct) : Bool :=
  (l.dropWhile fun a => !longOf a).all longOf

/-- Adjacent non-increasing check on a list of sort keys. -/
def sortedDescQ : List ℚ → Bool
  | [] => true
  | [_] => true
  | a :: b :: t => decide (b ≤ a) && sortedDescQ (b :: t)

theorem descRel_trans {α : Type} (k : α → ℚ) :
    ∀ (a b c : α), decide (k b ≤ k a) = true → decide (k c ≤ k b) = true →
      decide (k c ≤ k a) = true := fun _ _ _ h1 h2 =>
  decide_eq_true (le_trans (of_decide_eq_true h2) (of_decide_eq_true h1))

theorem descRel_total {α : Type} (k : α → ℚ) (a b : α) :
    (decide (k b ≤ k a) || decide (k a ≤ k b)) = true := by
  rcases le_total (k b) (k a) with h | h
  · simp [h]
  · simp [h]

theorem sortDescBy_pairwise {α : Type} (k : α → ℚ) (l : List α) :
    (sortDescBy k l).Pairwise fun a b => decide (k b ≤ k a) = true :=
  List.sorted_mergeSort (descRel_trans k) (descRel_total k) l

theorem sortedDescQ_of_pairwise {α : Type} (k : α → ℚ) :
    ∀ {l : List α}, l.Pairwise (fun a b => decide (k b ≤ k a) = true) →
      sortedDescQ (l.map k) = true
  | [], _ => rfl
  | [_], _ => rfl
  | a :: b :: t, h => by
    rw [List.pairwise_cons] at h
    show (decide (k b ≤ k a) && sortedDescQ (k b :: t.map k)) = true
    refine Bool.and_eq_true_iff.mpr ⟨h.1 b (List.mem_cons_self _ _), ?_⟩
    exact sortedDescQ_of_pairwise k (l := b :: t) h.2

theorem mem_sortDescBy {α : Type} {k : α → ℚ} {l : List α} {x : α}
    (hx : x ∈ sortDescBy k l) : x ∈ l := (sortDescBy_perm k l).mem_iff.mp hx

/-- The regular-group and long-group contents of the sorted output. -/
theorem sortStage_filter_parts (l : List ScoredAct) :
    (sortStage l).filter (fun a => !longOf a) =
      sortDescBy scoreOf (l.filter fun a => !longOf a) ∧
    (sortStage l).filter longOf = sortDescBy scoreOf (l.filter longOf) := by
  unfold sortStage
  constructor
  · rw [List.filter_append]
    have h1 : (sortDescBy scoreOf (l.filter fun a => !longOf a)).filter
        (fun a => !longOf a) =
        sortDescBy scoreOf (l.filter fun a => !longOf a) :=
      List.filter_eq_self.mpr fun a ha =>
        (List.mem_filter.mp (mem_sortDescBy ha)).2
    have h2 : (sortDescBy scoreOf (l.filter longOf)).filter
        (fun a => !longOf a) = [] :=
      List.filter_eq_nil_iff.mpr fun a ha => by
        have hl := (List.mem_filter.mp (mem_sortDescBy ha)).2
        simp [hl]
    rw [h1, h2, List.append_nil]
  · rw [List.filter_append]
    have h1 : (sortDescBy scoreOf (l.filter fun a => !longOf a)).filter
        longOf = [] :=
      List.filter_eq_nil_iff.mpr fun a ha => by
        have hl := (List.mem_filter.mp (mem_sortDescBy ha)).2
        simp at hl
        simp [hl]
    have h2 : (sortDescBy scoreOf (l.filter longOf)).filter longOf =
        sortDescBy scoreOf (l.filter longOf) :=
      List.filter_eq_self.mpr fun a ha =>
        (List.mem_filter.mp (mem_sortDescBy ha)).2
    rw [h1, h2, List.nil_append]

theorem noLongBefore_append {A B : List ScoredAct}
    (hA : ∀ x ∈ A, longOf x = false) (hB : ∀ x ∈ B, longOf x = true) :
    noLongBeforeRegular (A ++ B) = true := by
  unfold noLongBeforeRegular
  induction A with
  | nil =>
    simp only [List.nil_append]
    cases B with
    | nil => rfl
    | cons b bt =>
      rw [List.dropWhile_cons]
      have hb := hB b (List.mem_cons_self _ _)
      rw [hb]
      simp only [Bool.not_true]
      rw [if_neg (by simp)]
      exact List.all_eq_true.mpr hB
  | cons a At ih =>
    rw [List.cons_append, List.dropWhile_cons]
    have ha := hA a (List.mem_cons_self _ _)
    rw [ha]
    simp only [Bool.not_false, if_true]
    exact ih fun x hx => hA x (List.mem_cons_of_mem _ hx)

/-- Stability of the descending sort on any key-homogeneous class: the
subsequence of records whose key and flag agree is preserved exactly. -/
theorem sortDescBy_filter_fixed {α : Type} (k : α → ℚ) (l : List α)
    (p : α → Bool) (hp : ∀ x y, p x = true → p y = true → k x = k y) :
    (sortDescBy k l).filter p = l.filter p := by
  have hpair : (l.filter p).Pairwise fun a b => decide (k b ≤ k a) = true := by
    refine List.pairwise_of_forall_mem_list ?_
    intro a ha b hb
    have hpa := (List.mem_filter.mp ha).2
    have hpb := (List.mem_filter.mp hb).2
    exact decide_eq_true (le_of_eq (hp b a hpb hpa))
  have hsub : (l.filter p).Sublist (sortDescBy k l) :=
    List.sublist_mergeSort (descRel_trans k) (descRel_total k) hpair
      (List.filter_sublist l)
  have h1 : ((l.filter p).filter p).Sublist ((sortDescBy k l).filter p) :=
    hsub.filter p
  rw [List.filter_eq_self.mpr fun a ha => (List.mem_filter.mp ha).2] at h1
  have hperm : ((sortDescBy k l).filter p).Perm (l.filter p) :=
    (sortDescBy_perm k l).filter p
  exact (h1.eq_of_length hperm.length_eq.symm).symm

/-- The pair-key filter used to state stability: records in one
(flag, score) class. -/
def keyClass (fl : Bool) (q : ℚ) (a : ScoredAct) : Bool :=
  (longOf a == fl) && decide (scoreOf a = q)

theorem keyClass_filter_split (l : List ScoredAct) (fl : Bool) (q : ℚ)
    (g : ScoredAct → Bool) (hg : ∀ a, keyClass fl q a = true → g a = true) :
    (l.filter g).filter (keyClass fl q) = l.filter (keyClass fl q) := by
  rw [List.filter_filter]
  apply List.filter_congr
  intro a _
  cases hk : keyClass fl q a
  · simp
  · simp [hg a hk]

/-- C5: the category ranker outputs the regular (non-long-tour) records
first and the long-tour records last, each group stably sorted by stored
total score descending: no long-tour record ever precedes a regular one,
both groups are in non-increasing score order, and each (flag, score)
class keeps exactly its input subsequence (stability).  The second
conjunct states the no-long-before-regular guarantee for the full
`apply_preference_filters_to_activities` entry point. -/
theorem C5_ranker_order_and_stability :
    (∀ l : List ScoredAct,
      noLongBeforeRegular (sortStage l) = true ∧
      sortedDescQ (((sortStage l).filter fun a => !longOf a).map scoreOf) =
        true ∧
      sortedDescQ (((sortStage l).filter longOf).map scoreOf) = true ∧
      ∀ (fl : Bool) (q : ℚ),
        (sortStage l).filter (keyClass fl q) = l.filter (keyClass fl q)) ∧
    (∀ (P : PowModel) (acts : List RawAct) (prefs : Option PyMap3)
      (days : Option ℚ),
      noLongBeforeRegular
        (apply_preference_filters_to_activities P acts prefs days) = true) := by
  have hmain : ∀ l : List ScoredAct, noLongBeforeRegular (sortStage l) = true := by
    intro l
    unfold sortStage
    refine noLongBefore_append ?_ ?_
    · intro x hx
      have := (List.mem_filter.mp (mem_sortDescBy hx)).2
      simpa using this
    · intro x hx
      exact (List.mem_filter.mp (mem_sortDescBy hx)).2
  constructor
  · intro l
    refine ⟨hmain l, ?_, ?_, ?_⟩
    · rw [(sortStage_filter_parts l).1]
      exact sortedDescQ_of_pairwise scoreOf (sortDescBy_pairwise scoreOf _)
    · rw [(sortStage_filter_parts l).2]
      exact sortedDescQ_of_pairwise scoreOf (sortDescBy_pairwise scoreOf _)
    · intro fl q
      have hcls : ∀ x y, keyClass fl q x = true → keyClass fl q y = true →
          scoreOf x = scoreOf y := by
        intro x y hx hy
        have hx2 := (Bool.and_eq_true_iff.mp hx).2
        have hy2 := (Bool.and_eq_true_iff.mp hy).2
        rw [of_decide_eq_true hx2, of_decide_eq_true hy2]
      cases fl with
      | false =>
        have hg : ∀ a, keyClass false q a = true → (!longOf a) = true := by
          intro a ha
          have h1 := (Bool.and_eq_true_iff.mp ha).1
          cases hl : longOf a
          · rfl
          · rw [hl] at h1
            cases h1
        calc (sortStage l).filter (keyClass false q)
            = ((sortStage l).filter fun a => !longOf a).filter
                (keyClass false q) :=
              (keyClass_filter_split (sortStage l) false q _ hg).symm
          _ = (sortDescBy scoreOf (l.filter fun a => !longOf a)).filter
                (keyClass false q) := by rw [(sortStage_filter_parts l).1]
          _ = (l.filter fun a => !longOf a).filter (keyClass false q) :=
              sortDescBy_filter_fixed scoreOf _ _ hcls
          _ = l.filter (keyClass false q) :=
              keyClass_filter_split l false q _ hg
      | true =>
        have hg : ∀ a, keyClass true q a = true → longOf a = true := by
          intro a ha
          have h1 := (Bool.and_eq_true_iff.mp ha).1
          cases hl : longOf a
          · rw [hl] at h1
            cases h1
          · rfl
        calc (sortStage l).filter (keyClass true q)
            = ((sortStage l).filter longOf).filter (keyClass true q) :=
              (keyClass_filter_split (sortStage l) true q _ hg).symm
          _ = (sortDescBy scoreOf (l.filter longOf)).filter
                (keyClass true q) := by rw [(sortStage_filter_parts l).2]
          _ = (l.filter longOf).filter (keyClass true q) :=
              sortDescBy_filter_fixed scoreOf _ _ hcls
          _ = l.filter (keyClass true q) :=
              keyClass_filter_split l true q _ hg
  · intro P acts prefs days
    unfold apply_preference_filters_to_activities
    have hplain : noLongBeforeRegular (acts.map plainAct) = true := by
      have h0 := noLongBefore_append (A := acts.map plainAct) (B := [])
        (fun x hx => by
          obtain ⟨a0, _, rfl⟩ := List.mem_map.mp hx
          rfl)
        (fun x hx => by cases hx)
      simpa using h0
    split
    · exact hplain
    · split
      · rename_i l hok
        obtain ⟨rawBQ, w, rfl⟩ := rankActBody_ok_shape hok
        exact hmain _
      · exact hplain

/-! ## Single-candidate neutrality on the hotels ranking path (C4) -/

/-- The hotel of the C4 scenario: $100 per night, rating 4.0, distance
2 km. -/
def cexHotel100 : RawHotel :=
  ⟨some (.scal (.num 100)), none, some (.num 4), some (.num 2), none, 1⟩

/-- The default preference weights as a preferences dict. -/
def cexPrefsDefault : PyMap3 :=
  ⟨some (.num 0.33), some (.num 0.33), some (.num 0.34)⟩

theorem rank_singleton_eq (h : RawHotel) (p : PyMap3) (rb rq rc vp vd : ℚ)
    (hrb : pyFloat (p.budget.getD (.num 0.33)) = .ok rb)
    (hrq : pyFloat (p.quality.getD (.num 0.33)) = .ok rq)
    (hrc : pyFloat (p.convenience.getD (.num 0.34)) = .ok rc)
    (hvp : rankHotelPrice h = some vp)
    (hvd : rankHotelDistance h = some vd) :
    apply_preference_weights_to_hotels [h] (some p) =
      [⟨h, some (pyRound 4 ((hotelRankWeights rb rq rc).bw * (1/2) +
          (hotelRankWeights rb rq rc).qw * hotelRatingScore h +
          (hotelRankWeights rb rq rc).cw * (1/2))),
        some (1/2), some (pyRound 4 (hotelRatingScore h)),
        some (1/2)⟩] := by
  have hpool : [h].filterMap rankHotelPrice = [vp] := by
    simp [List.filterMap_cons, hvp]
  have hdpool : [h].filterMap rankHotelDistance = [vd] := by
    simp [List.filterMap_cons, hvd]
  have hps : hotelPriceScore [vp] h = 1/2 := by
    norm_num [hotelPriceScore, pyMinO, pyMaxO, hvp, inverse_normalize]
  have hds : hotelDistScore [vd] h = 1/2 := by
    norm_num [hotelDistScore, pyMinO, pyMaxO, hvd, inverse_normalize]
  have hbody : hotelRankBody [h] p = .ok
      (sortDescBy (fun sh : ScoredHotel => sh.pref_score.getD 0)
        [scoredHotelMk (hotelRankWeights rb rq rc) [vp] [vd] h]) := by
    simp only [hotelRankBody, hrb, hrq, hrc, Bind.bind, Except.bind,
      hpool, hdpool, List.map_cons, List.map_nil, Pure.pure, Except.pure]
  have hview : apply_preference_weights_to_hotels [h] (some p) =
      (match hotelRankBody [h] p with
        | .ok l => l
        | .error _ => [h].map plainHotel) := rfl
  rw [hview, hbody, List.perm_singleton.mp (sortDescBy_perm
    (fun sh : ScoredHotel => sh.pref_score.getD 0)
    [scoredHotelMk (hotelRankWeights rb rq rc) [vp] [vd] h])]
  simp only [scoredHotelMk, hps, hds]
  norm_num [pyRound]

theorem hotelsRankedSingleton :
    apply_preference_weights_to_hotels [cexHotel100] (some cexPrefsDefault) =
      [⟨cexHotel100, some (599/1000), some (1/2), some (4/5),
        some (1/2)⟩] := by
  rw [rank_singleton_eq cexHotel100 cexPrefsDefault (33/100) (33/100)
    (17/50) 100 2
    (by norm_num [cexPrefsDefault, pyFloat])
    (by norm_num [cexPrefsDefault, pyFloat])
    (by norm_num [cexPrefsDefault, pyFloat])
    (by norm_num [cexHotel100, rankHotelPrice, safeFloatHP, safeFloatV,
      priceTruthy, truthy])
    (by norm_num [cexHotel100, rankHotelDistance, safeFloatV])]
  norm_num [hotelRankWeights, hotelRatingScore, rankHotelRating,
    safeFloatV, cexHotel100, pyRound]

/-- C4 fails on the code at the claim's own scenario: for a single hotel
at $100 per night with rating 4.0 and distance 2 km under default
weights, the price and distance axes are indeed degenerate-neutral, but
the quality axis is the absolute clamped rating over five — 4/5 — not
the neutral value, and all stored components live on a 0–1 scale (50
appears nowhere), with a weighted total of 0.599 rather than a neutral
one. -/
theorem C4_single_candidate_cex :
    (apply_preference_weights_to_hotels [cexHotel100]
        (some cexPrefsDefault) =
      [⟨cexHotel100, some (599/1000), some (1/2), some (4/5),
        some (1/2)⟩]) ∧
    (4 : ℚ)/5 ≠ 1/2 ∧ (4 : ℚ)/5 ≠ 50 ∧
    (599/1000 : ℚ) ≠ 1/2 ∧ (599/1000 : ℚ) ≠ 50 :=
  ⟨hotelsRankedSingleton, by norm_num, by norm_num, by norm_num,
    by norm_num⟩

/-- C4 (amended): on the hotels ranking path, a single candidate whose
price and distance parse is neutral on the min–max axes only — its price
and distance components are exactly the degenerate-range value 0.5 (on
the 0–1 scale the path uses, not 50) — while its quality component is
the absolute clamped rating over five, and the preference score is the
weighted mix of those three values. -/
theorem C4_single_hotel_amended (h : RawHotel) (p : PyMap3)
    (rb rq rc vp vd : ℚ)
    (hrb : pyFloat (p.budget.getD (.num 0.33)) = .ok rb)
    (hrq : pyFloat (p.quality.getD (.num 0.33)) = .ok rq)
    (hrc : pyFloat (p.convenience.getD (.num 0.34)) = .ok rc)
    (hvp : rankHotelPrice h = some vp)
    (hvd : rankHotelDistance h = some vd) :
    apply_preference_weights_to_hotels [h] (some p) =
      [⟨h, some (pyRound 4 ((hotelRankWeights rb rq rc).bw * (1/2) +
          (hotelRankWeights rb rq rc).qw * hotelRatingScore h +
          (hotelRankWeights rb rq rc).cw * (1/2))),
        some (1/2), some (pyRound 4 (hotelRatingScore h)),
        some (1/2)⟩] :=
  rank_singleton_eq h p rb rq rc vp vd hrb hrq hrc hvp hvd

/-- Witness: C4 (amended) applied to the scenario hotel ($100 per night,
rating 4.0, distance 2 km) under the default weights. -/
theorem C4_single_hotel_amended_witness :
    pyFloat (cexPrefsDefault.budget.getD (.num 0.33)) = .ok (33/100) ∧
    rankHotelPrice cexHotel100 = some 100 ∧
    apply_preference_weights_to_hotels [cexHotel100]
        (some cexPrefsDefault) =
      [⟨cexHotel100,
        some (pyRound 4
          ((hotelRankWeights (33/100) (33/100) (17/50)).bw * (1/2) +
            (hotelRankWeights (33/100) (33/100) (17/50)).qw *
              hotelRatingScore cexHotel100 +
            (hotelRankWeights (33/100) (33/100) (17/50)).cw * (1/2))),
        some (1/2), some (pyRound 4 (hotelRatingScore cexHotel100)),
        some (1/2)⟩] :=
  ⟨by norm_num [cexPrefsDefault, pyFloat],
   by norm_num [cexHotel100, rankHotelPrice, safeFloatHP, safeFloatV,
     priceTruthy, truthy],
   C4_single_hotel_amended cexHotel100 cexPrefsDefault (33/100) (33/100)
     (17/50) 100 2
     (by norm_num [cexPrefsDefault, pyFloat])
     (by norm_num [cexPrefsDefault, pyFloat])
     (by norm_num [cexPrefsDefault, pyFloat])
     (by norm_num [cexHotel100, rankHotelPrice, safeFloatHP, safeFloatV,
       priceTruthy, truthy])
     (by norm_num [cexHotel100, rankHotelDistance, safeFloatV])⟩

/-! ## Score ranges on both entry points (C3) -/

/-- The three preference values of the ranking paths parse to
non-negative floats (an unparsable value raises before any score is
stored, so it needs no constraint). -/
def prefsNonnegF (p : PyMap3) : Bool :=
  (match pyFloat (p.budget.getD (.num 0.33)) with
   | .ok v => decide (0 ≤ v)
   | .error _ => true) &&
  (match pyFloat (p.quality.getD (.num 0.33)) with
   | .ok v => decide (0 ≤ v)
   | .error _ => true) &&
  (match pyFloat (p.convenience.getD (.num 0.34)) with
   | .ok v => decide (0 ≤ v)
   | .error _ => true)

/-- `prefsNonnegF` lifted over an optional preferences dict. -/
def prefsNonnegO : Option PyMap3 → Bool
  | none => true
  | some p => prefsNonnegF p

/-- The three preference values of `generateOptimalItinerary` are
non-negative numbers whenever they are numbers at all. -/
def prefsNonnegA (p : PyMap3) : Bool :=
  (match asArith (p.budget.getD (.num 0.33)) with
   | .ok v => decide (0 ≤ v)
   | .error _ => true) &&
  (match asArith (p.quality.getD (.num 0.33)) with
   | .ok v => decide (0 ≤ v)
   | .error _ => true) &&
  (match asArith (p.convenience.getD (.num 0.34)) with
   | .ok v => decide (0 ≤ v)
   | .error _ => true)

/-- A flight's parsed price is non-negative and its parsed rating lies in
0–5, whenever they parse at all. -/
def flightRangeOk (f : RawFlight) : Bool :=
  (match flightPriceE f with
   | .ok v => decide (0 ≤ v)
   | .error _ => true) &&
  (match flightRatingE f with
   | .ok r => decide (0 ≤ r ∧ r ≤ 5)
   | .error _ => true)

/-- A hotel's parsed price and distance are non-negative and its parsed
rating lies in 0–5, whenever they parse at all. -/
def hotelRangeOk (h : RawHotel) : Bool :=
  (match hotelPriceE h with
   | .ok v => decide (0 ≤ v)
   | .error _ => true) &&
  (match hotelRatingE h with
   | .ok r => decide (0 ≤ r ∧ r ≤ 5)
   | .error _ => true) &&
  (match hotelDistE h with
   | .ok d => decide (0 ≤ d)
   | .error _ => true)

/-- An activity's parsed price is non-negative, its parsed rating lies in
0–5, and its extracted duration is non-negative. -/
def actRangeOk (a : RawAct) : Bool :=
  (match actPriceE a with
   | .ok v => decide (0 ≤ v)
   | .error _ => true) &&
  (match actRatingE a with
   | .ok r => decide (0 ≤ r ∧ r ≤ 5)
   | .error _ => true) &&
  decide (0 ≤ actDurationQ a)

/-- All four 0–1 scores of a normalized flight record are in range. -/
def normFlightBounds (f : NormFlight) : Bool :=
  decide (0 ≤ f.bscore ∧ f.bscore ≤ 1) &&
  decide (0 ≤ f.qscore ∧ f.qscore ≤ 1) &&
  decide (0 ≤ f.cscore ∧ f.cscore ≤ 1) &&
  decide (0 ≤ f.cat ∧ f.cat ≤ 1)

/-- All four 0–1 scores of a normalized hotel record are in range. -/
def normHotelBounds (h : NormHotel) : Bool :=
  decide (0 ≤ h.bscore ∧ h.bscore ≤ 1) &&
  decide (0 ≤ h.qscore ∧ h.qscore ≤ 1) &&
  decide (0 ≤ h.cscore ∧ h.cscore ≤ 1) &&
  decide (0 ≤ h.cat ∧ h.cat ≤ 1)

/-- All four 0–1 scores of a normalized activity record are in range. -/
def normActBounds (a : NormAct) : Bool :=
  decide (0 ≤ a.bscore ∧ a.bscore ≤ 1) &&
  decide (0 ≤ a.qscore ∧ a.qscore ≤ 1) &&
  decide (0 ≤ a.cscore ∧ a.cscore ≤ 1) &&
  decide (0 ≤ a.cat ∧ a.cat ≤ 1)

/-- The stored total score of a ranked activity record is on the 0–1
scale (absent keys pass). -/
def totalScoreIn01 (sa : ScoredAct) : Bool :=
  match sa.total_score with
  | some t => decide (0 ≤ t ∧ t ≤ 1)
  | none => true

theorem pyRound_mem01 {x : ℚ} (h0 : 0 ≤ x) (h1 : x ≤ 1) (n : ℕ) :
    0 ≤ pyRound n x ∧ pyRound n x ≤ 1 := by
  constructor
  · exact pyRound_nonneg h0
  · have h : x ≤ ((1 : ℤ) : ℚ) := by push_cast; linarith
    simpa using pyRound_le_intCast h

theorem mapME_ok_mem {α β : Type} {f : α → Except Unit β} :
    ∀ {l : List α} {ys : List β}, mapME f l = .ok ys →
      ∀ y ∈ ys, ∃ x ∈ l, f x = .ok y
  | [], ys, h => by
    intro y hy
    simp only [mapME, Except.ok.injEq] at h
    subst h
    cases hy
  | x :: xs, ys, h => by
    intro y hy
    simp only [mapME] at h
    obtain ⟨y0, hy0, h⟩ := exceptBind_ok h
    obtain ⟨ys0, hys0, h⟩ := exceptBind_ok h
    simp only [Pure.pure, Except.pure, Except.ok.injEq] at h
    subst h
    rcases List.mem_cons.mp hy with h1 | h1
    · exact ⟨x, List.mem_cons_self x xs, h1 ▸ hy0⟩
    · obtain ⟨x1, hx1, hfx1⟩ := mapME_ok_mem hys0 y h1
      exact ⟨x1, List.mem_cons_of_mem _ hx1, hfx1⟩

theorem isoHours_nonneg (h m : Option ℕ) : 0 ≤ isoHours h m := by
  unfold isoHours
  positivity

theorem flightDurationQ_nonneg (f : RawFlight) : 0 ≤ flightDurationQ f := by
  unfold flightDurationQ
  split
  · exact isoHours_nonneg _ _
  · split
    · exact isoHours_nonneg _ _
    · norm_num
    · norm_num

theorem weighted3_mem2 {bw qw cw b q c : ℚ} (hbw : 0 ≤ bw) (hqw : 0 ≤ qw)
    (hcw : 0 ≤ cw) (hsum : bw + qw + cw = 1) (hb0 : 0 ≤ b) (hb1 : b ≤ 1)
    (hq0 : 0 ≤ q) (hq1 : q ≤ 1) (hc0 : 0 ≤ c) (hc1 : c ≤ 1) :
    0 ≤ bw * b + qw * q + cw * c ∧ bw * b + qw * q + cw * c ≤ 1 := by
  rw [mul_comm bw b, mul_comm qw q, mul_comm cw c]
  exact weighted3_mem hbw hqw hcw hsum hb0 hb1 hq0 hq1 hc0 hc1

theorem axis_inv_mem {p M : ℚ} (h0 : 0 ≤ p) (hM : p ≤ M) (hMpos : 0 < M) :
    0 ≤ 1 - p / M ∧ 1 - p / M ≤ 1 := by
  constructor
  · have h := (div_le_one hMpos).mpr hM
    linarith
  · have h := div_nonneg h0 (le_of_lt hMpos)
    linarith

theorem div5_mem {r : ℚ} (h0 : 0 ≤ r) (h5 : r ≤ 5) :
    0 ≤ r / 5 ∧ r / 5 ≤ 1 := by
  constructor
  · positivity
  · rw [div_le_one (by norm_num)]
    linarith

theorem mean3_mem {x y z : ℚ} (hx0 : 0 ≤ x) (hx1 : x ≤ 1) (hy0 : 0 ≤ y)
    (hy1 : y ≤ 1) (hz0 : 0 ≤ z) (hz1 : z ≤ 1) :
    0 ≤ (x + y + z) / 3 ∧ (x + y + z) / 3 ≤ 1 := by
  constructor
  · positivity
  · rw [div_le_one (by norm_num)]
    linarith

theorem optWeights_nonneg {p : PyMap3} {w : W3}
    (hok : optWeights p = .ok w) (hnn : prefsNonnegA p = true) :
    0 ≤ w.bw ∧ 0 ≤ w.qw ∧ 0 ≤ w.cw ∧ w.bw + w.qw + w.cw = 1 := by
  unfold optWeights at hok
  obtain ⟨b, hb, hok⟩ := exceptBind_ok hok
  obtain ⟨q, hq, hok⟩ := exceptBind_ok hok
  obtain ⟨c, hc, hok⟩ := exceptBind_ok hok
  unfold prefsNonnegA at hnn
  rw [hb, hq, hc] at hnn
  simp only [Bool.and_eq_true, decide_eq_true_eq] at hnn
  obtain ⟨⟨hb0, hq0⟩, hc0⟩ := hnn
  split at hok
  · rename_i hpos
    have h2 : (⟨b / (b + q + c), q / (b + q + c), c / (b + q + c)⟩ : W3) =
        w := by
      simpa [Pure.pure, Except.pure] using hok
    subst h2
    have hle := le_of_lt hpos
    refine ⟨div_nonneg hb0 hle, div_nonneg hq0 hle, div_nonneg hc0 hle, ?_⟩
    dsimp only
    field_simp
  · have h2 : (⟨1/3, 1/3, 1/3⟩ : W3) = w := by
      simpa [Pure.pure, Except.pure] using hok
    subst h2
    norm_num

theorem rankActWeights_nonneg {prefs : Option PyMap3}
    {rawBQ : Option (ℚ × ℚ)} {w : W3}
    (hok : rankActWeights prefs = .ok (rawBQ, w))
    (hnn : prefsNonnegO prefs = true) :
    0 ≤ w.bw ∧ 0 ≤ w.qw ∧ 0 ≤ w.cw ∧ w.bw + w.qw + w.cw = 1 := by
  cases prefs with
  | none =>
    simp only [rankActWeights, Pure.pure, Except.pure, Except.ok.injEq,
      Prod.mk.injEq] at hok
    rw [← hok.2]
    norm_num
  | some p =>
    simp only [rankActWeights] at hok
    obtain ⟨rb, hrb, hok⟩ := exceptBind_ok hok
    obtain ⟨rq, hrq, hok⟩ := exceptBind_ok hok
    obtain ⟨rc, hrc, hok⟩ := exceptBind_ok hok
    simp only [prefsNonnegO, prefsNonnegF] at hnn
    rw [hrb, hrq, hrc] at hnn
    simp only [Bool.and_eq_true, decide_eq_true_eq] at hnn
    obtain ⟨⟨hb0, hq0⟩, hc0⟩ := hnn
    split at hok
    · have h2 : ((some (rb, rq), (⟨1/3, 1/3, 1/3⟩ : W3)) :
          Option (ℚ × ℚ) × W3) = (rawBQ, w) := by
        simpa [Pure.pure, Except.pure] using hok
      rw [← (Prod.mk.injEq _ _ _ _).mp h2 |>.2]
      norm_num
    · rename_i hpos
      have hpos2 : 0 < rb + rq + rc := lt_of_not_le hpos
      have h2 : ((some (rb, rq), (⟨rb / (rb + rq + rc), rq / (rb + rq + rc),
          rc / (rb + rq + rc)⟩ : W3)) : Option (ℚ × ℚ) × W3) =
          (rawBQ, w) := by
        simpa [Pure.pure, Except.pure] using hok
      rw [← (Prod.mk.injEq _ _ _ _).mp h2 |>.2]
      have hle := le_of_lt hpos2
      refine ⟨div_nonneg hb0 hle, div_nonneg hq0 hle,
        div_nonneg hc0 hle, ?_⟩
      dsimp only
      field_simp

theorem scoreAct_total_mem (P : PowModel) (hasPrefs : Bool) {w : W3}
    (hbw : 0 ≤ w.bw) (hqw : 0 ≤ w.qw) (hcw : 0 ≤ w.cw)
    (hsum : w.bw + w.qw + w.cw = 1) (prices : List ℚ) {durations : List ℚ}
    (hd : ∀ x ∈ durations, 0 ≤ x) (a : RawAct) :
    0 ≤ (scoreAct P hasPrefs w prices durations a).2.2.2 ∧
      (scoreAct P hasPrefs w prices durations a).2.2.2 ≤ 1 := by
  have hB := actNormBudget_mem P hasPrefs w prices a
  have hQ := actNormQuality_mem P hasPrefs w a
  have hC := actNormConvenience_mem P hasPrefs w hd a
  have hmix := weighted3_mem hbw hqw hcw hsum hB.1 hB.2 hQ.1 hQ.2 hC.1 hC.2
  exact pyRound_mem01 hmix.1 hmix.2 4

/-- A successful run of the ranking body, with the weight equation kept. -/
theorem rankActBody_ok_full {P : PowModel} {acts : List RawAct}
    {prefs : Option PyMap3} {days : Option ℚ} {l : List ScoredAct}
    (h : rankActBody P acts prefs days = .ok l) :
    ∃ rawBQ w, rankActWeights prefs = .ok (rawBQ, w) ∧
      l = sortStage (acts.map fun a =>
        scoredActMk P rawBQ w days (actPricePool acts)
          (actDurationPool acts) a) := by
  unfold rankActBody at h
  obtain ⟨wr, hw, hpure⟩ := exceptBind_ok h
  exact ⟨wr.1, wr.2, hw, by simpa [Pure.pure, Except.pure] using hpure.symm⟩

theorem mem_triples {fs : List NormFlight} {hs : List NormHotel}
    {as : List NormAct} {t : NormFlight × NormHotel × NormAct}
    (ht : t ∈ triples fs hs as) : t.1 ∈ fs ∧ t.2.1 ∈ hs ∧ t.2.2 ∈ as := by
  unfold triples at ht
  obtain ⟨f, hf, ht⟩ := List.mem_flatMap.mp ht
  obtain ⟨h, hh, ht⟩ := List.mem_flatMap.mp ht
  obtain ⟨a, ha, rfl⟩ := List.mem_map.mp ht
  exact ⟨hf, hh, ha⟩

theorem dummyHotel_bounds : normHotelBounds dummyHotel = true := by
  norm_num [normHotelBounds, dummyHotel]

theorem dummyAct_bounds : normActBounds dummyAct = true := by
  norm_num [normActBounds, dummyAct]

theorem normalizeFlights_bounds {w : W3} (hbw : 0 ≤ w.bw) (hqw : 0 ≤ w.qw)
    (hcw : 0 ≤ w.cw) (hsum : w.bw + w.qw + w.cw = 1) {fs : List RawFlight}
    (hok : ∀ f ∈ fs, flightRangeOk f = true) {nfs : List NormFlight}
    (h : normalizeFlights w fs = .ok nfs) :
    ∀ nf ∈ nfs, normFlightBounds nf = true := by
  unfold normalizeFlights at h
  split at h
  · simp only [Pure.pure, Except.pure, Except.ok.injEq] at h
    subst h
    intro nf hnf
    cases hnf
  · obtain ⟨prices, hp, h⟩ := exceptBind_ok h
    obtain ⟨ratings, hr, h⟩ := exceptBind_ok h
    simp only [Pure.pure, Except.pure, Except.ok.injEq] at h
    subst h
    intro nf hnf
    obtain ⟨fx, hfx, rfl⟩ := List.mem_map.mp hnf
    obtain ⟨f0, px⟩ := fx
    obtain ⟨p0, dx⟩ := px
    obtain ⟨d0, r0⟩ := dx
    have h1 := List.of_mem_zip hfx
    have h2 := List.of_mem_zip h1.2
    have h3 := List.of_mem_zip h2.2
    obtain ⟨f1, hf1, hpf1⟩ := mapME_ok_mem hp p0 h2.1
    have hokp := hok f1 hf1
    unfold flightRangeOk at hokp
    rw [hpf1] at hokp
    simp only [Bool.and_eq_true, decide_eq_true_eq] at hokp
    have hp0 : 0 ≤ p0 := hokp.1
    obtain ⟨f2, hf2, hrf2⟩ := mapME_ok_mem hr r0 h3.2
    have hokr := hok f2 hf2
    unfold flightRangeOk at hokr
    rw [hrf2] at hokr
    simp only [Bool.and_eq_true, decide_eq_true_eq] at hokr
    have hr05 := hokr.2
    obtain ⟨f3, _, hdf3⟩ := List.mem_map.mp h3.1
    have hd0 : 0 ≤ d0 := hdf3 ▸ flightDurationQ_nonneg f3
    have hbs : 0 ≤ (if 0 < pyMaxD 1 prices then 1 - p0 / pyMaxD 1 prices
        else (0.5 : ℚ)) ∧ (if 0 < pyMaxD 1 prices then
        1 - p0 / pyMaxD 1 prices else (0.5 : ℚ)) ≤ 1 := by
      split
      · rename_i hpos
        exact axis_inv_mem hp0 (le_pyMaxD h2.1 1) hpos
      · norm_num
    have hqs := div5_mem hr05.1 hr05.2
    have hcs : 0 ≤ (if 0 < pyMaxD 1 (fs.map flightDurationQ) then
        1 - d0 / pyMaxD 1 (fs.map flightDurationQ) else (0.5 : ℚ)) ∧
        (if 0 < pyMaxD 1 (fs.map flightDurationQ) then
        1 - d0 / pyMaxD 1 (fs.map flightDurationQ) else (0.5 : ℚ)) ≤ 1 := by
      split
      · rename_i hpos
        exact axis_inv_mem hd0 (le_pyMaxD h3.1 1) hpos
      · norm_num
    have hcat := weighted3_mem2 hbw hqw hcw hsum hbs.1 hbs.2 hqs.1 hqs.2
      hcs.1 hcs.2
    simp only [normFlightBounds, Bool.and_eq_true, decide_eq_true_eq]
    exact ⟨⟨⟨hbs, hqs⟩, hcs⟩, hcat⟩

theorem normalizeHotels_bounds {w : W3} (hbw : 0 ≤ w.bw) (hqw : 0 ≤ w.qw)
    (hcw : 0 ≤ w.cw) (hsum : w.bw + w.qw + w.cw = 1) {hs : List RawHotel}
    (hok : ∀ x ∈ hs, hotelRangeOk x = true) {nhs : List NormHotel}
    (h : normalizeHotels w hs = .ok nhs) :
    ∀ nh ∈ nhs, normHotelBounds nh = true := by
  unfold normalizeHotels at h
  split at h
  · simp only [Pure.pure, Except.pure, Except.ok.injEq] at h
    subst h
    intro nh hnh
    cases hnh
  · obtain ⟨prices, hp, h⟩ := exceptBind_ok h
    obtain ⟨ratings, hr, h⟩ := exceptBind_ok h
    obtain ⟨distances, hd, h⟩ := exceptBind_ok h
    simp only [Pure.pure, Except.pure, Except.ok.injEq] at h
    subst h
    intro nh hnh
    obtain ⟨hx, hhx, rfl⟩ := List.mem_map.mp hnh
    obtain ⟨h0, px⟩ := hx
    obtain ⟨p0, rx⟩ := px
    obtain ⟨r0, d0⟩ := rx
    have h1 := List.of_mem_zip hhx
    have h2 := List.of_mem_zip h1.2
    have h3 := List.of_mem_zip h2.2
    obtain ⟨x1, hx1, hpx1⟩ := mapME_ok_mem hp p0 h2.1
    have hokp := hok x1 hx1
    unfold hotelRangeOk at hokp
    rw [hpx1] at hokp
    simp only [Bool.and_eq_true, decide_eq_true_eq] at hokp
    have hp0 : 0 ≤ p0 := hokp.1.1
    obtain ⟨x2, hx2, hrx2⟩ := mapME_ok_mem hr r0 h3.1
    have hokr := hok x2 hx2
    unfold hotelRangeOk at hokr
    rw [hrx2] at hokr
    simp only [Bool.and_eq_true, decide_eq_true_eq] at hokr
    have hr05 := hokr.1.2
    obtain ⟨x3, hx3, hdx3⟩ := mapME_ok_mem hd d0 h3.2
    have hokd := hok x3 hx3
    unfold hotelRangeOk at hokd
    rw [hdx3] at hokd
    simp only [Bool.and_eq_true, decide_eq_true_eq] at hokd
    have hd0 : 0 ≤ d0 := hokd.2
    have hbs : 0 ≤ (if 0 < pyMaxD 1 prices then 1 - p0 / pyMaxD 1 prices
        else (0.5 : ℚ)) ∧ (if 0 < pyMaxD 1 prices then
        1 - p0 / pyMaxD 1 prices else (0.5 : ℚ)) ≤ 1 := by
      split
      · rename_i hpos
        exact axis_inv_mem hp0 (le_pyMaxD h2.1 1) hpos
      · norm_num
    have hqs := div5_mem hr05.1 hr05.2
    have hcs : 0 ≤ (if 0 < pyMaxD 1 distances then
        1 - d0 / pyMaxD 1 distances else (0.5 : ℚ)) ∧
        (if 0 < pyMaxD 1 distances then
        1 - d0 / pyMaxD 1 distances else (0.5 : ℚ)) ≤ 1 := by
      split
      · rename_i hpos
        exact axis_inv_mem hd0 (le_pyMaxD h3.2 1) hpos
      · norm_num
    have hcat := weighted3_mem2 hbw hqw hcw hsum hbs.1 hbs.2 hqs.1 hqs.2
      hcs.1 hcs.2
    simp only [normHotelBounds, Bool.and_eq_true, decide_eq_true_eq]
    exact ⟨⟨⟨hbs, hqs⟩, hcs⟩, hcat⟩

theorem normalizeActs_bounds {w : W3} (hbw : 0 ≤ w.bw) (hqw : 0 ≤ w.qw)
    (hcw : 0 ≤ w.cw) (hsum : w.bw + w.qw + w.cw = 1) {acts : List RawAct}
    (hok : ∀ x ∈ acts, actRangeOk x = true) {nas : List NormAct}
    (h : normalizeActs w acts = .ok nas) :
    ∀ na ∈ nas, normActBounds na = true := by
  unfold normalizeActs at h
  split at h
  · simp only [Pure.pure, Except.pure, Except.ok.injEq] at h
    subst h
    intro na hna
    cases hna
  · obtain ⟨prices, hp, h⟩ := exceptBind_ok h
    obtain ⟨ratings, hr, h⟩ := exceptBind_ok h
    simp only [Pure.pure, Except.pure, Except.ok.injEq] at h
    subst h
    intro na hna
    obtain ⟨ax, hax, rfl⟩ := List.mem_map.mp hna
    obtain ⟨a0, px⟩ := ax
    obtain ⟨p0, rx⟩ := px
    obtain ⟨r0, d0⟩ := rx
    have h1 := List.of_mem_zip hax
    have h2 := List.of_mem_zip h1.2
    have h3 := List.of_mem_zip h2.2
    obtain ⟨x1, hx1, hpx1⟩ := mapME_ok_mem hp p0 h2.1
    have hokp := hok x1 hx1
    unfold actRangeOk at hokp
    rw [hpx1] at hokp
    simp only [Bool.and_eq_true, decide_eq_true_eq] at hokp
    have hp0 : 0 ≤ p0 := hokp.1.1
    obtain ⟨x2, hx2, hrx2⟩ := mapME_ok_mem hr r0 h3.1
    have hokr := hok x2 hx2
    unfold actRangeOk at hokr
    rw [hrx2] at hokr
    simp only [Bool.and_eq_true, decide_eq_true_eq] at hokr
    have hr05 := hokr.1.2
    obtain ⟨x3, hx3, hdx3⟩ := List.mem_map.mp h3.2
    have hokd := hok x3 hx3
    unfold actRangeOk at hokd
    simp only [Bool.and_eq_true, decide_eq_true_eq] at hokd
    have hd0 : 0 ≤ d0 := hdx3 ▸ hokd.2
    have hbs : 0 ≤ (if 0 < pyMaxD 1 prices then 1 - p0 / pyMaxD 1 prices
        else (0.5 : ℚ)) ∧ (if 0 < pyMaxD 1 prices then
        1 - p0 / pyMaxD 1 prices else (0.5 : ℚ)) ≤ 1 := by
      split
      · rename_i hpos
        exact axis_inv_mem hp0 (le_pyMaxD h2.1 1) hpos
      · norm_num
    have hqs := div5_mem hr05.1 hr05.2
    have hcs : 0 ≤ (if 0 < pyMaxD 1 (acts.map actDurationQ) then
        1 - d0 / pyMaxD 1 (acts.map actDurationQ) else (0.5 : ℚ)) ∧
        (if 0 < pyMaxD 1 (acts.map actDurationQ) then
        1 - d0 / pyMaxD 1 (acts.map actDurationQ) else (0.5 : ℚ)) ≤ 1 := by
      split
      · rename_i hpos
        exact axis_inv_mem hd0 (le_pyMaxD h3.2 1) hpos
      · norm_num
    have hcat := weighted3_mem2 hbw hqw hcw hsum hbs.1 hbs.2 hqs.1 hqs.2
      hcs.1 hcs.2
    simp only [normActBounds, Bool.and_eq_true, decide_eq_true_eq]
    exact ⟨⟨⟨hbs, hqs⟩, hcs⟩, hcat⟩

/-- A successful optimizer run, with the weight and normalizer equations
kept. -/
theorem generateOptimalItinerary_success_full
    {flights : List RawFlight} {hotels : List RawHotel} {acts : List RawAct}
    {preferences : PyMap3} {userBudget : ℚ} {d : SuccessData}
    (h : generateOptimalItinerary flights hotels acts preferences userBudget =
      .ok (.success d)) :
    ∃ (w : W3) (nf : List NormFlight) (nh0 : List NormHotel)
      (na0 : List NormAct) (c : Combo),
      optWeights preferences = .ok w ∧
      normalizeFlights w flights = .ok nf ∧
      normalizeHotels w hotels = .ok nh0 ∧
      normalizeActs w acts = .ok na0 ∧
      (triples nf (if nh0.isEmpty then [dummyHotel] else nh0)
          (if na0.isEmpty then [dummyAct] else na0)).foldl
        (searchStep userBudget) none = some c ∧
      d = ⟨c.flight, c.hotel, c.activity, c.total_price, c.total_score,
        c.hotel.isDummy, c.activity.isDummy⟩ := by
  unfold generateOptimalItinerary at h
  obtain ⟨w, hw, h⟩ := exceptBind_ok h
  obtain ⟨nf, hnf, h⟩ := exceptBind_ok h
  obtain ⟨nh0, hnh, h⟩ := exceptBind_ok h
  obtain ⟨na0, hna, h⟩ := exceptBind_ok h
  split at h
  · simp [Pure.pure, Except.pure] at h
  · split at h
    · simp [Pure.pure, Except.pure] at h
    · rename_i c hc
      refine ⟨w, nf, nh0, na0, c, hw, hnf, hnh, hna, hc, ?_⟩
      simp only [Pure.pure, Except.pure, Except.ok.injEq] at h
      injection h with h
      exact h.symm

theorem optimize_success_bounds {flights : List RawFlight}
    {hotels : List RawHotel} {acts : List RawAct} {preferences : PyMap3}
    {userBudget : ℚ} {d : SuccessData}
    (hnn : prefsNonnegA preferences = true)
    (hf : ∀ f ∈ flights, flightRangeOk f = true)
    (hh : ∀ x ∈ hotels, hotelRangeOk x = true)
    (ha : ∀ x ∈ acts, actRangeOk x = true)
    (h : generateOptimalItinerary flights hotels acts preferences userBudget
      = .ok (.success d)) :
    normFlightBounds d.flight = true ∧ normHotelBounds d.hotel = true ∧
      normActBounds d.activity = true ∧
      0 ≤ d.total_score ∧ d.total_score ≤ 1 := by
  obtain ⟨w, nf, nh0, na0, c, hw, hnf, hnh, hna, hfold, hd⟩ :=
    generateOptimalItinerary_success_full h
  obtain ⟨hbw, hqw, hcw, hsum⟩ := optWeights_nonneg hw hnn
  have hfb := normalizeFlights_bounds hbw hqw hcw hsum hf hnf
  have hhb := normalizeHotels_bounds hbw hqw hcw hsum hh hnh
  have hab := normalizeActs_bounds hbw hqw hcw hsum ha hna
  have hhb2 : ∀ x ∈ (if nh0.isEmpty then [dummyHotel] else nh0),
      normHotelBounds x = true := by
    split
    · intro x hx
      rw [List.mem_singleton.mp hx]
      exact dummyHotel_bounds
    · exact hhb
  have hab2 : ∀ x ∈ (if na0.isEmpty then [dummyAct] else na0),
      normActBounds x = true := by
    split
    · intro x hx
      rw [List.mem_singleton.mp hx]
      exact dummyAct_bounds
    · exact hab
  have hQ : normFlightBounds c.flight = true ∧
      normHotelBounds c.hotel = true ∧ normActBounds c.activity = true ∧
      0 ≤ c.total_score ∧ c.total_score ≤ 1 := by
    refine foldl_searchStep_invariant userBudget
      (fun c2 => normFlightBounds c2.flight = true ∧
        normHotelBounds c2.hotel = true ∧
        normActBounds c2.activity = true ∧
        0 ≤ c2.total_score ∧ c2.total_score ≤ 1)
      _ none ?_ ?_ c hfold
    · intro t ht _
      obtain ⟨htf, hth, hta⟩ := mem_triples ht
      have hcf := hfb t.1 htf
      have hch := hhb2 t.2.1 hth
      have hca := hab2 t.2.2 hta
      have hcatf : 0 ≤ t.1.cat ∧ t.1.cat ≤ 1 := by
        have h2 := hcf
        simp only [normFlightBounds, Bool.and_eq_true,
          decide_eq_true_eq] at h2
        exact h2.2
      have hcath : 0 ≤ t.2.1.cat ∧ t.2.1.cat ≤ 1 := by
        have h2 := hch
        simp only [normHotelBounds, Bool.and_eq_true,
          decide_eq_true_eq] at h2
        exact h2.2
      have hcata : 0 ≤ t.2.2.cat ∧ t.2.2.cat ≤ 1 := by
        have h2 := hca
        simp only [normActBounds, Bool.and_eq_true,
          decide_eq_true_eq] at h2
        exact h2.2
      have hm := mean3_mem hcatf.1 hcatf.2 hcath.1 hcath.2 hcata.1 hcata.2
      exact ⟨hcf, hch, hca, hm.1, hm.2⟩
    · intro c2 hc2
      exact Option.noConfusion hc2
  rw [hd]
  exact hQ

theorem rankActs_scores_bounded (P : PowModel) (acts : List RawAct)
    (prefs : Option PyMap3) (days : Option ℚ)
    (hnn : prefsNonnegO prefs = true) :
    ∀ sa ∈ apply_preference_filters_to_activities P acts prefs days,
      axisScoresIn0100 sa = true ∧ totalScoreIn01 sa = true := by
  intro sa hsa
  unfold apply_preference_filters_to_activities at hsa
  split at hsa
  · obtain ⟨a0, _, rfl⟩ := List.mem_map.mp hsa
    exact ⟨axisScoresIn0100_plain a0, rfl⟩
  · split at hsa
    · rename_i l hok
      obtain ⟨rawBQ, w, hwts, rfl⟩ := rankActBody_ok_full hok
      have hsa2 := (sortStage_perm _).mem_iff.mp hsa
      obtain ⟨a0, _, rfl⟩ := List.mem_map.mp hsa2
      obtain ⟨hbw, hqw, hcw, hsum⟩ := rankActWeights_nonneg hwts hnn
      refine ⟨axisScoresIn0100_mk P rawBQ w days _
        (actDurationPool_nonneg acts) a0, ?_⟩
      have ht := scoreAct_total_mem P rawBQ.isSome hbw hqw hcw hsum
        (actPricePool acts) (actDurationPool_nonneg acts) a0
      simp only [totalScoreIn01, scoredActMk]
      exact decide_eq_true ⟨ht.1, ht.2⟩
    · obtain ⟨a0, _, rfl⟩ := List.mem_map.mp hsa
      exact ⟨axisScoresIn0100_plain a0, rfl⟩

/-- The activities of the C3 counterexample: a cheap long activity and a
pricier short one, both rated 0. -/
def actA : RawAct :=
  ⟨some (.scal (.num 10)), some (.num 0), some (.numv 10), none, 1⟩

def actB : RawAct :=
  ⟨some (.scal (.num 20)), some (.num 0), some (.numv 1), none, 2⟩

/-- The preferences dict of the C3 counterexample: a negative budget
weight whose raw total is still positive, so it survives normalization
unclamped. -/
def cexPrefsNeg : PyMap3 :=
  ⟨some (.num (-(1/10))), some (.num (11/20)), some (.num (11/20))⟩

/-- C3 fails on the code: on the activities ranking path a negative
budget preference weight survives normalization (its raw total 1.0 is
positive, and no clamping occurs), and an activity with the best base
budget score receives the stored total score −0.1, below the claimed
interval. -/
theorem C3_score_range_cex :
    ∃ sa ∈ apply_preference_filters_to_activities powId [actA, actB]
      (some cexPrefsNeg) none,
      sa.total_score = some (-(1/10)) ∧ ¬(0 ≤ (-(1/10) : ℚ)) := by
  have hwr : rankActWeights (some cexPrefsNeg) =
      .ok (some (-(1/10), 11/20), ⟨-(1/10), 11/20, 11/20⟩) := by
    norm_num [rankActWeights, cexPrefsNeg, pyFloat, Bind.bind, Except.bind,
      Pure.pure, Except.pure]
  have hbody : rankActBody powId [actA, actB] (some cexPrefsNeg) none = .ok
      (sortStage ([actA, actB].map fun a => scoredActMk powId
        (some (-(1/10), 11/20)) ⟨-(1/10), 11/20, 11/20⟩ none
        (actPricePool [actA, actB]) (actDurationPool [actA, actB]) a)) := by
    unfold rankActBody
    rw [hwr]
    rfl
  have happ : apply_preference_filters_to_activities powId [actA, actB]
      (some cexPrefsNeg) none =
      sortStage ([actA, actB].map fun a => scoredActMk powId
        (some (-(1/10), 11/20)) ⟨-(1/10), 11/20, 11/20⟩ none
        (actPricePool [actA, actB]) (actDurationPool [actA, actB]) a) := by
    have hview : apply_preference_filters_to_activities powId [actA, actB]
        (some cexPrefsNeg) none =
        (match rankActBody powId [actA, actB] (some cexPrefsNeg) none with
          | .ok l => l
          | .error _ => [actA, actB].map plainAct) := rfl
    rw [hview, hbody]
  have htot : (scoredActMk powId (some (-(1/10), 11/20))
      ⟨-(1/10), 11/20, 11/20⟩ none (actPricePool [actA, actB])
      (actDurationPool [actA, actB]) actA).total_score =
      some (-(1/10)) := by
    norm_num [scoredActMk, scoreAct, actNormBudget, actNormQuality,
      actNormConvenience, actBaseBudget, actBaseQuality,
      actBaseConvenience, amplifyBudget, amplifyQuality,
      amplifyConvenience, actPricePool, actDurationPool, rankActPrice,
      rankActRating, rankActHours, rankActDurField, extractDurationHours,
      safeFloatV, truthy, durTruthy, pyMinO, pyMaxO, inverse_normalize,
      forward_normalize, clamp01, pyRound, actA, actB, List.filterMap,
      List.filter]
    rw [show ((-1000 : ℚ)) = ((-1000 : ℤ) : ℚ) by norm_num, round_intCast]
    norm_num
  refine ⟨scoredActMk powId (some (-(1/10), 11/20))
    ⟨-(1/10), 11/20, 11/20⟩ none (actPricePool [actA, actB])
    (actDurationPool [actA, actB]) actA, ?_, htot, by norm_num⟩
  rw [happ]
  refine (sortStage_perm _).mem_iff.mpr ?_
  exact List.mem_map.mpr ⟨actA, by simp, rfl⟩

/-- C3 (amended): the claimed 0–100 range holds with two corrections.
On the activities ranking path, provided every supplied preference value
that parses is non-negative (the code never clamps negative weights),
each stored budget, quality and convenience display score lies in
[0, 100] and each stored total score lies on the 0–1 scale (inside
[0, 1], not scaled to 100).  On the cross-category optimizer, provided
the preference values are non-negative where numeric, candidate prices,
distances and extracted activity durations are non-negative and ratings
lie in 0–5, every score of the winning combination's flight, hotel and
activity records lies in [0, 1], as does the reported total score.  The
duration proviso is load-bearing: a bare negative activity duration
number is accepted by the extractor and drives the convenience score
`1 − d / max` above 1. -/
theorem C3_score_range_amended :
    (∀ (P : PowModel) (acts : List RawAct) (prefs : Option PyMap3)
        (days : Option ℚ), prefsNonnegO prefs = true →
      ∀ sa ∈ apply_preference_filters_to_activities P acts prefs days,
        axisScoresIn0100 sa = true ∧ totalScoreIn01 sa = true) ∧
    (∀ (flights : List RawFlight) (hotels : List RawHotel)
        (acts : List RawAct) (preferences : PyMap3) (userBudget : ℚ)
        (d : SuccessData),
      prefsNonnegA preferences = true →
      (∀ f ∈ flights, flightRangeOk f = true) →
      (∀ x ∈ hotels, hotelRangeOk x = true) →
      (∀ x ∈ acts, actRangeOk x = true) →
      generateOptimalItinerary flights hotels acts preferences userBudget =
        .ok (.success d) →
      normFlightBounds d.flight = true ∧ normHotelBounds d.hotel = true ∧
        normActBounds d.activity = true ∧
        0 ≤ d.total_score ∧ d.total_score ≤ 1) :=
  ⟨fun P acts prefs days hnn =>
    rankActs_scores_bounded P acts prefs days hnn,
   fun _ _ _ _ _ _ hnn hf hh ha h =>
    optimize_success_bounds hnn hf hh ha h⟩

/-- A featureless activity for the C3 witness. -/
def actW : RawAct := ⟨none, none, none, none, 1⟩

/-- The flight of the C3 witness: price 500. -/
def flight500 : RawFlight := ⟨some (.scal (.num 500)), none, none, none, 1⟩

/-- The success payload of the C3 witness run (dummy hotel and activity,
default weights). -/
def d500 : SuccessData :=
  ⟨⟨1, 500, 0, 4, 0, 4/5, 1/2, 217/500⟩, dummyHotel, dummyAct, 500,
    391/750, true, true⟩

/-- Witness: C3 (amended) applied on the ranking path to a featureless
activity under absent preferences, and on the optimizer path to a
single 500-priced flight with no hotels or activities under default
weights and budget 100. -/
theorem C3_score_range_amended_witness :
    (axisScoresIn0100 (scoredActMk powId none ⟨1/3, 1/3, 1/3⟩ none
        (actPricePool [actW]) (actDurationPool [actW]) actW) = true ∧
      totalScoreIn01 (scoredActMk powId none ⟨1/3, 1/3, 1/3⟩ none
        (actPricePool [actW]) (actDurationPool [actW]) actW) = true) ∧
    (normFlightBounds d500.flight = true ∧
      normHotelBounds d500.hotel = true ∧
      normActBounds d500.activity = true ∧
      0 ≤ d500.total_score ∧ d500.total_score ≤ 1) := by
  constructor
  · refine C3_score_range_amended.1 powId [actW] none none rfl _ ?_
    have happ : apply_preference_filters_to_activities powId [actW] none
        none = sortStage [scoredActMk powId none ⟨1/3, 1/3, 1/3⟩ none
          (actPricePool [actW]) (actDurationPool [actW]) actW] := rfl
    rw [happ]
    exact (sortStage_perm _).mem_iff.mpr (List.mem_singleton_self _)
  · refine C3_score_range_amended.2 [flight500] [] [] ⟨none, none, none⟩
      100 d500 (by norm_num [prefsNonnegA, asArith]) ?_ (by simp)
      (by simp) ?_
    · intro f hf
      rw [List.mem_singleton.mp hf]
      norm_num [flightRangeOk, flight500, flightPriceE, flightRatingE,
        truthy, pyFloat, dictGet2]
    · norm_num [generateOptimalItinerary, optWeights, asArith,
        normalizeFlights, normalizeHotels, normalizeActs, mapME,
        flightPriceE, flightDurationQ, flightRatingE, dictGet2, truthy,
        pyFloat, isoHours, pyMaxD, dummyHotel, dummyAct, triples,
        searchStep, mkCombo, comboSkipped, bestScoreOf, flight500, d500,
        Bind.bind, Except.bind, Pure.pure, Except.pure]

/-! ## Mutation behavior and totality of the ranking entry points (C8, C10) -/

theorem hotelRankBody_ok_shape {hs : List RawHotel} {p : PyMap3}
    {l : List ScoredHotel} (h : hotelRankBody hs p = .ok l) :
    ∃ w, l = sortDescBy (fun sh => sh.pref_score.getD 0)
      (hs.map (scoredHotelMk w (hs.filterMap rankHotelPrice)
        (hs.filterMap rankHotelDistance))) := by
  unfold hotelRankBody at h
  obtain ⟨rb, _, h⟩ := exceptBind_ok h
  obtain ⟨rq, _, h⟩ := exceptBind_ok h
  obtain ⟨rc, _, h⟩ := exceptBind_ok h
  exact ⟨hotelRankWeights rb rq rc,
    by simpa [Pure.pure, Except.pure] using h.symm⟩

theorem map_orig_plainHotel (hs : List RawHotel) :
    (hs.map plainHotel).map (fun sh => sh.orig) = hs := by
  rw [List.map_map]
  exact List.map_id hs

theorem map_orig_plainAct (acts : List RawAct) :
    (acts.map plainAct).map (fun sa => sa.orig) = acts := by
  rw [List.map_map]
  exact List.map_id acts

theorem map_orig_scoredHotelMk (w : W3) (pv dv : List ℚ)
    (hs : List RawHotel) :
    (hs.map (scoredHotelMk w pv dv)).map (fun sh => sh.orig) = hs := by
  rw [List.map_map]
  exact List.map_id hs

theorem map_orig_scoredActMk (P : PowModel) (rawBQ : Option (ℚ × ℚ))
    (w : W3) (days : Option ℚ) (pp dp : List ℚ) (acts : List RawAct) :
    (acts.map (scoredActMk P rawBQ w days pp dp)).map
      (fun sa => sa.orig) = acts := by
  rw [List.map_map]
  exact List.map_id acts

/-- The hotel record of the C8 counterexample: price 200, tag 1. -/
def cexHotel : RawHotel := ⟨none, some (.scal (.num 200)), none, none, none, 1⟩

/-- The preferences dict of the C8 counterexample: all three weights 1. -/
def cexPrefsOnes : PyMap3 := ⟨some (.num 1), some (.num 1), some (.num 1)⟩

/-- C8 fails on the code: the hotels ranking entry point mutates the
caller's records in place — after the call the caller's own list holds
the annotated record carrying the computed preference-score keys, not the
original record. -/
theorem C8_no_mutation_cex :
    hotelsCallerView [cexHotel] (some cexPrefsOnes) ≠
      [plainHotel cexHotel] := by
  intro heq
  have hmem : plainHotel cexHotel ∈
      hotelsCallerView [cexHotel] (some cexPrefsOnes) := by
    rw [heq]
    exact List.mem_singleton_self _
  have hmem2 : plainHotel cexHotel ∈ sortDescBy
      (fun sh : ScoredHotel => sh.pref_score.getD 0)
      ([cexHotel].map (scoredHotelMk (hotelRankWeights 1 1 1)
        ([cexHotel].filterMap rankHotelPrice)
        ([cexHotel].filterMap rankHotelDistance))) := hmem
  have hmem3 := (sortDescBy_perm
    (fun sh : ScoredHotel => sh.pref_score.getD 0) _).mem_iff.mp hmem2
  have hmem4 : plainHotel cexHotel = scoredHotelMk (hotelRankWeights 1 1 1)
      ([cexHotel].filterMap rankHotelPrice)
      ([cexHotel].filterMap rankHotelDistance) cexHotel := by
    simpa using hmem3
  simp [plainHotel, scoredHotelMk] at hmem4

theorem rankHotels_orig_perm (hs : List RawHotel) (prefs : Option PyMap3) :
    ((apply_preference_weights_to_hotels hs prefs).map
      (fun sh => sh.orig)).Perm hs := by
  unfold apply_preference_weights_to_hotels
  split
  · rw [map_orig_plainHotel hs]
  · split
    · rw [map_orig_plainHotel hs]
    · rename_i p
      rcases hbody : hotelRankBody hs p with e | l
      · show ((hs.map plainHotel).map (fun sh => sh.orig)).Perm hs
        rw [map_orig_plainHotel hs]
      · obtain ⟨w, rfl⟩ := hotelRankBody_ok_shape hbody
        show ((sortDescBy (fun sh : ScoredHotel => sh.pref_score.getD 0)
            (hs.map (scoredHotelMk w (hs.filterMap rankHotelPrice)
              (hs.filterMap rankHotelDistance)))).map
          (fun sh => sh.orig)).Perm hs
        refine List.Perm.trans (List.Perm.map _
          (sortDescBy_perm
            (fun sh : ScoredHotel => sh.pref_score.getD 0) _)) ?_
        rw [map_orig_scoredHotelMk]

theorem rankActs_orig_perm (P : PowModel) (acts : List RawAct)
    (prefs : Option PyMap3) (days : Option ℚ) :
    ((apply_preference_filters_to_activities P acts prefs days).map
      (fun sa => sa.orig)).Perm acts := by
  unfold apply_preference_filters_to_activities
  split
  · rw [map_orig_plainAct acts]
  · split
    · rename_i l hok
      obtain ⟨rawBQ, w, rfl⟩ := rankActBody_ok_shape hok
      refine List.Perm.trans (List.Perm.map _ (sortStage_perm _)) ?_
      rw [map_orig_scoredActMk]
    · rw [map_orig_plainAct acts]

/-- C8 (amended): the ranking entry points annotate the caller's records
in place (and the hotels entry point additionally sorts the caller's list
in place), so the caller's records and list are mutated rather than
copied; what is preserved is the records themselves — the output
(equally, the caller's post-call list) carries exactly the original
records' payloads, as a permutation of the input, with computed fields
only added. -/
theorem C8_mutation_amended :
    (∀ (hs : List RawHotel) (prefs : Option PyMap3),
      ((apply_preference_weights_to_hotels hs prefs).map
        (fun sh => sh.orig)).Perm hs) ∧
    (∀ (P : PowModel) (acts : List RawAct) (prefs : Option PyMap3)
      (days : Option ℚ),
      ((apply_preference_filters_to_activities P acts prefs days).map
        (fun sa => sa.orig)).Perm acts) :=
  ⟨rankHotels_orig_perm, rankActs_orig_perm⟩

/-- C10: the single-category ranking entry points never propagate an
internal exception and always return exactly as many records as they were
given: when the weight parsing raises (a non-numeric preference value,
the one raising step of the modelled body), both entry points return the
caller's candidate list un-annotated; and on every input the returned
list has exactly the input's length. -/
theorem C10_rank_error_recovery :
    (∀ (P : PowModel) (acts : List RawAct) (days : Option ℚ),
      apply_preference_filters_to_activities P acts
        (some ⟨some .strBad, none, none⟩) days = acts.map plainAct) ∧
    (∀ hs : List RawHotel,
      apply_preference_weights_to_hotels hs
        (some ⟨some .strBad, none, none⟩) = hs.map plainHotel) ∧
    (∀ (P : PowModel) (acts : List RawAct) (prefs : Option PyMap3)
      (days : Option ℚ),
      (apply_preference_filters_to_activities P acts prefs days).length =
        acts.length) ∧
    (∀ (hs : List RawHotel) (prefs : Option PyMap3),
      (apply_preference_weights_to_hotels hs prefs).length = hs.length) := by
  refine ⟨?_, ?_, ?_, ?_⟩
  · intro P acts days
    unfold apply_preference_filters_to_activities
    split
    · rename_i he
      rw [List.isEmpty_iff.mp he]
    · rfl
  · intro hs
    unfold apply_preference_weights_to_hotels
    split
    · rename_i he
      rw [List.isEmpty_iff.mp he]
    · rfl
  · intro P acts prefs days
    have hperm := (rankActs_orig_perm P acts prefs days).length_eq
    rwa [List.length_map] at hperm
  · intro hs prefs
    have hperm := (rankHotels_orig_perm hs prefs).length_eq
    rwa [List.length_map] at hperm

end TravelOptimizer
